import Mathlib

/-!
Shallow embedding of the `shapeland` theme-park simulation (Python sources
`park.py`, `attraction.py`, `activity.py`, `agent.py`, `behavior_reference.py`)
and proofs about the claims of its specification.

Modelling conventions:
* Python `int` values are `Int` (or `Nat` where the source only ever holds
  non-negative counts and indices).
* Python `float` values (arising from true division) are modelled as exact
  rationals.  To keep every definition kernel-computable they are represented
  by the structural fraction type `PyNum` (numerator/denominator, denominators
  kept positive by construction, comparisons by cross-multiplication); its
  denotation into `ℚ` is `PyNum.val`, used only inside proofs.
* Python `int(x)` (truncation toward zero) is `pyInt`; list slicing `l[:n]` /
  `l[n:]` with possibly negative `n` is `pyTake` / `pyDrop`.
* Python `dict` (insertion ordered) is an association list; `dict[k] = v` is
  `dictUpdate` (replace first binding or append), `dict[k]` is `List.lookup`.
* Fallible operations (KeyError, TypeError on `None` comparison, ValueError of
  `list.remove`, AssertionError, ZeroDivisionError, `random.choice` on an empty
  sequence, unbounded-variable NameError) return `Except Err`.
* Library pseudo-random generators (`np.random.default_rng(seed)` draws and the
  seeded global `random` module) are fixed deterministic algorithms; they are
  modelled by an `Oracles` record of arbitrary deterministic functions of the
  derived seed / stream state, quantified over in the theorems.  The *unseeded*
  global NumPy generator (reached by `Activity.add_to_activity` when the
  configured seed is falsy) is ambient entropy that differs between two separate
  runs; it is modelled by a separate stream `e : Nat → PyNum` with a position
  counter threaded through the engine state.
* While-loops whose termination is not structural carry explicit fuel and
  return an `Err.fuelErr` when exhausted.
-/

namespace Shapeland

/-! ## Numbers -/

/-- A Python number (int or float), as an exact un-normalized fraction.  All
constructions in the embedding keep `den` positive. -/
structure PyNum where
  num : Int
  den : Int
  deriving Repr, DecidableEq

instance : OfNat PyNum n := ⟨⟨(n : Int), 1⟩⟩

namespace PyNum

/-- Embed an `Int`. -/
def ofInt (n : Int) : PyNum := ⟨n, 1⟩

/-- Embed a `Nat`. -/
def ofNat (n : Nat) : PyNum := ⟨(n : Int), 1⟩

/-- Addition. -/
protected def add (a b : PyNum) : PyNum := ⟨a.num * b.den + b.num * a.den, a.den * b.den⟩

/-- Subtraction. -/
protected def sub (a b : PyNum) : PyNum := ⟨a.num * b.den - b.num * a.den, a.den * b.den⟩

/-- Multiplication. -/
protected def mul (a b : PyNum) : PyNum := ⟨a.num * b.num, a.den * b.den⟩

/-- Division (sign pushed into the numerator so the denominator stays
positive; division by numeric zero is always guarded by the callers, which
model Python's ZeroDivisionError). -/
protected def div (a b : PyNum) : PyNum :=
  if 0 ≤ b.num then ⟨a.num * b.den, a.den * b.num⟩ else ⟨-(a.num * b.den), -(a.den * b.num)⟩

instance : Add PyNum := ⟨PyNum.add⟩
instance : Sub PyNum := ⟨PyNum.sub⟩
instance : Mul PyNum := ⟨PyNum.mul⟩
instance : Div PyNum := ⟨PyNum.div⟩

/-- Numeric strict comparison `a < b`. -/
def lt (a b : PyNum) : Bool := decide (a.num * b.den < b.num * a.den)

/-- Numeric comparison `a <= b`. -/
def le (a b : PyNum) : Bool := decide (a.num * b.den ≤ b.num * a.den)

/-- Numeric equality `a == b`. -/
def eqb (a b : PyNum) : Bool := decide (a.num * b.den = b.num * a.den)

/-- Python `max` of two numbers (`max(x, y)` keeps `x` when equal). -/
def pymax (a b : PyNum) : PyNum := if le b a then a else b

/-- Python `min` of two numbers. -/
def pymin (a b : PyNum) : PyNum := if le a b then a else b

/-- `math.floor` (the value of Python `//`). -/
def floor (a : PyNum) : Int := a.num.fdiv a.den

/-- Truncation toward zero (Python `int(x)`). -/
def trunc (a : PyNum) : Int := a.num.tdiv a.den

/-- Denotation into `ℚ` (used only in proofs). -/
def val (a : PyNum) : ℚ := (a.num : ℚ) / (a.den : ℚ)

end PyNum

/-- Runtime failures of the Python source, surfaced by the embedding. -/
inductive Err where
  | typeErr      -- TypeError (e.g. comparing None with int)
  | keyErr       -- KeyError (missing dict key)
  | valueErr     -- ValueError (`list.remove` / `list.index` of absent element)
  | nameErr      -- NameError (variable referenced before assignment)
  | assertionErr -- AssertionError raised by validation code
  | zeroDivErr   -- ZeroDivisionError
  | indexErr     -- IndexError (`random.choice` from an empty sequence)
  | fuelErr      -- loop fuel exhausted (source loop would not have finished yet)
  deriving Repr, DecidableEq

/-- Python `int(x)`: truncation of a float toward zero. -/
def pyInt (q : PyNum) : Int := q.trunc

/-- Python floor division `a // b` (result of `int // float`). -/
def pyFloorDiv (a b : PyNum) : Int := (a / b).floor

/-- Python slice `l[:n]` where `n` may be negative (counts from the end). -/
def pyTake (l : List Nat) (n : Int) : List Nat :=
  if 0 ≤ n then l.take n.toNat else l.take (l.length - (-n).toNat)

/-- Python slice `l[n:]` where `n` may be negative (counts from the end). -/
def pyDrop (l : List Nat) (n : Int) : List Nat :=
  if 0 ≤ n then l.drop n.toNat else l.drop (l.length - (-n).toNat)

/-- Python `min` over a non-empty list of numbers (0 as junk value on `[]`,
which the source never reaches because it guards with a truthiness test). -/
def pyListMin (l : List PyNum) : PyNum :=
  match l with
  | [] => 0
  | x :: xs => xs.foldl PyNum.pymin x

/-- Python `dict[k] = v` on an insertion-ordered dict rendered as an
association list: replace the first binding of `k`, else append. -/
def dictUpdate [BEq κ] (k : κ) (v : α) : List (κ × α) → List (κ × α)
  | [] => [(k, v)]
  | (k', v') :: rest => if k' == k then (k, v) :: rest else (k', v') :: dictUpdate k v rest

/-- Deterministic stand-ins for the pseudo-random library routines.  Every
draw in the source is a fixed function of a documented seed (for the NumPy
`default_rng` calls) or of the global `random`-module stream state (reset by
`random.seed(s)`, advanced by one on each draw), so the whole engine is a
deterministic function of the base seed once these algorithms are fixed. -/
structure Oracles where
  /-- `np.random.default_rng(seed).normal(mu, sigma, 1)[0]` -/
  npNormal : Nat → PyNum → PyNum → PyNum
  /-- `np.random.default_rng(seed).poisson(lam, 60)[i]` -/
  npPoisson : Nat → PyNum → Nat → Nat
  /-- `random.uniform(lo, hi)` at global stream state `s` -/
  pyUniform : Nat → PyNum → PyNum → PyNum
  /-- index drawn by `random.choice` from a sequence of length `n` at state `s` -/
  pyChoice : Nat → Nat → Nat

/-! ## Attraction (`attraction.py`) -/

/-- The immutable `attraction_characteristics` dictionary (`park.py` config
records).  `popularity` is `Int` so the 1–10 validation is meaningful;
`expedited_queue_ratio` is rendered as `exp_queue_frac`. -/
structure AttractionChars where
  name : String
  run_time : Nat
  hourly_throughput : Nat
  popularity : Int
  child_eligible : Bool
  adult_eligible : Bool
  expedited_queue : Bool
  exp_queue_frac : PyNum
  deriving Repr, DecidableEq

/-- An `Attraction` object: characteristics fixed by `initialize_attraction`,
mutable `state` dict fields, and the `history` dict. -/
structure Attraction where
  name : String
  run_time : Nat
  hourly_throughput : Nat
  popularity : Int
  child_eligible : Bool
  adult_eligible : Bool
  expedited_queue : Bool
  exp_queue_frac : PyNum
  run_time_remaining : Int
  exp_queue_passes : PyNum
  agents_in_attraction : List Nat
  queue : List Nat
  exp_queue : List Nat
  exp_queue_passes_distributed : Int
  hist_queue_length : List (Nat × Nat)
  hist_queue_wait_time : List (Nat × PyNum)
  hist_exp_queue_length : List (Nat × Nat)
  hist_exp_queue_wait_time : List (Nat × PyNum)
  deriving Repr, DecidableEq

/-- `self.capacity = hourly_throughput * (run_time/60)` (a Python float). -/
def Attraction.capacity (a : Attraction) : PyNum :=
  PyNum.ofNat a.hourly_throughput * (PyNum.ofNat a.run_time / (60 : PyNum))

/-- `Attraction.__init__` + `initialize_attraction`: validates popularity and
sets up characteristics, state and history. -/
def Attraction.init (c : AttractionChars) : Except Err Attraction :=
  if c.popularity < 1 ∨ 10 < c.popularity then .error .assertionErr
  else .ok
    { name := c.name
      run_time := c.run_time
      hourly_throughput := c.hourly_throughput
      popularity := c.popularity
      child_eligible := c.child_eligible
      adult_eligible := c.adult_eligible
      expedited_queue := c.expedited_queue
      exp_queue_frac := c.exp_queue_frac
      run_time_remaining := 0
      exp_queue_passes := 0
      agents_in_attraction := []
      queue := []
      exp_queue := []
      exp_queue_passes_distributed := 0
      hist_queue_length := []
      hist_queue_wait_time := []
      hist_exp_queue_length := []
      hist_exp_queue_wait_time := [] }

/-- The drain loop of `get_wait_time` (condition `queue_len >= capacity`),
with fuel for the iterations the source leaves unbounded. -/
def waitLoopStandby (cap exp_seats standby : PyNum) :
    Nat → PyNum → PyNum → Nat → Option Nat
  | 0, queue_len, _, runs => if PyNum.lt queue_len cap then some runs else none
  | fuel + 1, queue_len, exp_queue_len, runs =>
    if PyNum.lt queue_len cap then some runs
    else if PyNum.lt exp_seats exp_queue_len then
      waitLoopStandby cap exp_seats standby fuel
        (if PyNum.lt standby queue_len then queue_len - standby else 0)
        (exp_queue_len - exp_seats) (runs + 1)
    else
      waitLoopStandby cap exp_seats standby fuel
        (queue_len - (cap - exp_queue_len)) 0 (runs + 1)

/-- The drain loop of `get_exp_wait_time` (condition `exp_queue_len >= capacity`). -/
def waitLoopExp (cap exp_seats standby : PyNum) :
    Nat → PyNum → PyNum → Nat → Option Nat
  | 0, _, exp_queue_len, runs => if PyNum.lt exp_queue_len cap then some runs else none
  | fuel + 1, queue_len, exp_queue_len, runs =>
    if PyNum.lt exp_queue_len cap then some runs
    else if PyNum.lt exp_seats exp_queue_len then
      waitLoopExp cap exp_seats standby fuel
        (if PyNum.lt standby queue_len then queue_len - standby else 0)
        (exp_queue_len - exp_seats) (runs + 1)
    else
      waitLoopExp cap exp_seats standby fuel
        (queue_len - (cap - exp_queue_len)) 0 (runs + 1)

/-- `Attraction.get_wait_time`. -/
def Attraction.get_wait_time (fuel : Nat) (a : Attraction) : Except Err PyNum :=
  if a.expedited_queue then
    let exp_seats : Int := pyInt (a.capacity * a.exp_queue_frac)
    let standby_seats : PyNum := a.capacity - PyNum.ofInt exp_seats
    match waitLoopStandby a.capacity (PyNum.ofInt exp_seats) standby_seats fuel
        (PyNum.ofNat a.queue.length) (PyNum.ofNat a.exp_queue.length) 0 with
    | some runs => .ok (PyNum.ofNat runs * PyNum.ofNat a.run_time + PyNum.ofInt a.run_time_remaining)
    | none => .error .fuelErr
  else
    if a.capacity.eqb 0 then .error .zeroDivErr
    else .ok (PyNum.ofInt (pyFloorDiv (PyNum.ofNat a.queue.length) a.capacity)
      * PyNum.ofNat a.run_time + PyNum.ofInt a.run_time_remaining)

/-- `Attraction.get_exp_wait_time`. -/
def Attraction.get_exp_wait_time (fuel : Nat) (a : Attraction) : Except Err PyNum :=
  if a.expedited_queue then
    let exp_seats : Int := pyInt (a.capacity * a.exp_queue_frac)
    let standby_seats : PyNum := a.capacity - PyNum.ofInt exp_seats
    match waitLoopExp a.capacity (PyNum.ofInt exp_seats) standby_seats fuel
        (PyNum.ofNat a.queue.length) (PyNum.ofNat a.exp_queue.length) 0 with
    | some runs => .ok (PyNum.ofNat runs * PyNum.ofNat a.run_time + PyNum.ofInt a.run_time_remaining)
    | none => .error .fuelErr
  else
    .ok 0

/-- `Attraction.add_to_queue`. -/
def Attraction.add_to_queue (a : Attraction) (agent_id : Nat) : Attraction :=
  { a with queue := a.queue ++ [agent_id] }

/-- `Attraction.add_to_exp_queue`: appends then returns the expedited wait
estimate for the caller. -/
def Attraction.add_to_exp_queue (fuel : Nat) (a : Attraction) (agent_id : Nat) :
    Except Err (Attraction × PyNum) :=
  let a' := { a with exp_queue := a.exp_queue ++ [agent_id] }
  (Attraction.get_exp_wait_time fuel a').map (fun w => (a', w))

/-- `Attraction.remove_pass`. -/
def Attraction.remove_pass (a : Attraction) : Attraction :=
  { a with exp_queue_passes := a.exp_queue_passes - 1,
           exp_queue_passes_distributed := a.exp_queue_passes_distributed + 1 }

/-- `Attraction.return_pass`: reverses issuance and removes the agent from the
expedited queue by value (`list.remove` raises ValueError when absent). -/
def Attraction.return_pass (a : Attraction) (agent_id : Nat) : Except Err Attraction :=
  if a.exp_queue.contains agent_id then
    .ok { a with exp_queue_passes := a.exp_queue_passes + 1,
                 exp_queue_passes_distributed := a.exp_queue_passes_distributed - 1,
                 exp_queue := a.exp_queue.erase agent_id }
  else .error .valueErr

/-- The pass-budget refresh at the top of `Attraction.step` (source lines
147–163).  Comparing `time < park_close` against `None` raises TypeError, and
`60/self.run_time` raises ZeroDivisionError when `run_time == 0`. -/
def Attraction.stepBudget (a : Attraction) (time : Nat) (park_close : Option Nat) :
    Except Err Attraction :=
  if a.expedited_queue then
    match park_close with
    | none => .error .typeErr
    | some pc =>
      if time < pc then
        if a.run_time = 0 then .error .zeroDivErr
        else
          let remaining_operating_hours : Nat := (pc - time) / 60
          let passed_operating_hours : Nat := time / 60
          .ok { a with exp_queue_passes :=
            (a.capacity * ((60 : PyNum) / PyNum.ofNat a.run_time) * a.exp_queue_frac
                * PyNum.ofNat remaining_operating_hours
              - PyNum.pymax
                  (PyNum.ofInt a.exp_queue_passes_distributed
                    - a.capacity * ((60 : PyNum) / PyNum.ofNat a.run_time) * a.exp_queue_frac
                      * PyNum.ofNat passed_operating_hours)
                  0) }
      else .ok { a with exp_queue_passes := 0 }
  else .ok a

/-- The run-cycle completion part of `Attraction.step` (source lines 165–191):
unload occupants, reset the cycle clock, and load expedited then standby
agents.  Returns (new state, exiting agents, loaded agents). -/
def Attraction.stepLoad (a : Attraction) : Attraction × List Nat × List Nat :=
  if a.run_time_remaining = 0 then
    let exiting := a.agents_in_attraction
    let a := { a with agents_in_attraction := [], run_time_remaining := (a.run_time : Int) }
    let max_exp_queue_agents : Int := pyInt (a.capacity * a.exp_queue_frac)
    let max_queue_agents : Int :=
      if (a.exp_queue.length : Int) < max_exp_queue_agents then
        pyInt (a.capacity - PyNum.ofNat a.exp_queue.length)
      else
        pyInt (a.capacity - PyNum.ofInt max_exp_queue_agents)
    let expedited_agents_to_load := pyTake a.exp_queue max_exp_queue_agents
    let a := { a with agents_in_attraction := expedited_agents_to_load,
                      exp_queue := pyDrop a.exp_queue max_exp_queue_agents }
    let a := { a with agents_in_attraction :=
                        a.agents_in_attraction ++ pyTake a.queue max_queue_agents,
                      queue := pyDrop a.queue max_queue_agents }
    (a, exiting, a.agents_in_attraction)
  else (a, [], [])

/-- `Attraction.step(time, park_close)`. -/
def Attraction.step (a : Attraction) (time : Nat) (park_close : Option Nat) :
    Except Err (Attraction × List Nat × List Nat) :=
  (Attraction.stepBudget a time park_close).map Attraction.stepLoad

/-- `Attraction.pass_time`. -/
def Attraction.pass_time (a : Attraction) : Attraction :=
  { a with run_time_remaining := a.run_time_remaining - 1 }

/-- `Attraction.store_history(time)`. -/
def Attraction.store_history (fuel : Nat) (a : Attraction) (time : Nat) :
    Except Err Attraction := do
  let w ← Attraction.get_wait_time fuel a
  let ew ← Attraction.get_exp_wait_time fuel a
  .ok { a with
        hist_queue_length := dictUpdate time a.queue.length a.hist_queue_length,
        hist_queue_wait_time := dictUpdate time w a.hist_queue_wait_time,
        hist_exp_queue_length := dictUpdate time a.exp_queue.length a.hist_exp_queue_length,
        hist_exp_queue_wait_time := dictUpdate time ew a.hist_exp_queue_wait_time }

/-! ## Activity (`activity.py`) -/

/-- An activity configuration record of `activity_list`. -/
structure ActivityChars where
  name : String
  popularity : Int
  mean_time : PyNum
  deriving Repr, DecidableEq

/-- An `Activity` object. -/
structure Activity where
  name : String
  popularity : Int
  mean_time : PyNum
  /-- the park's base seed (`0` is falsy in `if self.random_seed:`) -/
  random_seed : Nat
  visitors : List Nat
  visitor_time_remaining : List PyNum
  hist_total_vistors : List (Nat × Nat)
  deriving Repr, DecidableEq

/-- `Activity.__init__` + `initialize_activity`. -/
def Activity.init (c : ActivityChars) (random_seed : Nat) : Except Err Activity :=
  if c.popularity < 0 ∨ 10 < c.popularity then .error .assertionErr
  else .ok
    { name := c.name
      popularity := c.popularity
      mean_time := c.mean_time
      random_seed := random_seed
      visitors := []
      visitor_time_remaining := []
      hist_total_vistors := [] }

/-- `Activity.add_to_activity(agent_id, expedited_return_time)`.  When the
configured seed is truthy the stay draw comes from
`np.random.default_rng(seed + agent_id)`; when it is falsy (`0`) the draw
comes from the *unseeded* global NumPy generator, modelled by the ambient
entropy stream `e` at position `epos`.  Returns the updated activity and the
new entropy position. -/
def Activity.add_to_activity (o : Oracles) (e : Nat → PyNum) (epos : Nat)
    (act : Activity) (agent_id : Nat) (expedited_return_time : List PyNum) :
    Activity × Nat :=
  let visitors' := act.visitors ++ [agent_id]
  let drawn : PyNum × Nat :=
    if act.random_seed ≠ 0 then
      (o.npNormal (act.random_seed + agent_id) act.mean_time (act.mean_time / (2 : PyNum)), epos)
    else
      (e epos, epos + 1)
  let stay_time : PyNum := PyNum.ofInt (pyInt (PyNum.pymax drawn.1 1))
  -- if agent is waiting in an exp queue, make them leave before they must board
  let stay_time : PyNum :=
    if expedited_return_time ≠ [] then
      PyNum.pymin (PyNum.pymax 1 (pyListMin expedited_return_time)) stay_time
    else stay_time
  ({ act with visitors := visitors',
              visitor_time_remaining := act.visitor_time_remaining ++ [stay_time] },
   drawn.2)

/-- `Activity.force_exit(agent_id)` (`list.index` raises ValueError if absent). -/
def Activity.force_exit (act : Activity) (agent_id : Nat) : Except Err Activity :=
  match act.visitors.indexOf? agent_id with
  | none => .error .valueErr
  | some i => .ok { act with visitors := act.visitors.eraseIdx i,
                             visitor_time_remaining := act.visitor_time_remaining.eraseIdx i }

/-- `Activity.step(time)`: visitors whose remaining time is exactly 0 exit.
The source deletes the collected indices in descending order (which preserves
the meaning of the remaining indices) and returns the exiting agent ids in
that reversed order; this is rendered by filtering on the index predicate. -/
def Activity.step (act : Activity) : Except Err (Activity × List Nat) :=
  if act.visitor_time_remaining.length < act.visitors.length then .error .indexErr
  else
    let exits : Nat → Bool := fun i => ((act.visitor_time_remaining.get? i).getD 1).eqb 0
    let exiting := (act.visitors.enum.filter (fun p => exits p.1)).reverse.map (·.2)
    let visitors' := (act.visitors.enum.filter (fun p => !exits p.1)).map (·.2)
    let remaining' := (act.visitor_time_remaining.enum.filter
      (fun p => !(decide (p.1 < act.visitors.length) && exits p.1))).map (·.2)
    .ok ({ act with visitors := visitors', visitor_time_remaining := remaining' }, exiting)

/-- `Activity.pass_time`. -/
def Activity.pass_time (act : Activity) : Activity :=
  { act with visitor_time_remaining := act.visitor_time_remaining.map (· - (1 : PyNum)) }

/-- `Activity.store_history(time)`. -/
def Activity.store_history (act : Activity) (time : Nat) : Activity :=
  { act with hist_total_vistors := dictUpdate time act.visitors.length act.hist_total_vistors }

/-! ## Behavior archetypes (`behavior_reference.py`) -/

/-- One entry of `BEHAVIOR_ARCHETYPE_PARAMETERS`. -/
structure ArchetypeParams where
  stay_time_preference : Nat
  allow_repeats : Bool
  attraction_preference : PyNum
  wait_threshold : PyNum
  percent_no_child_rides : PyNum
  percent_no_adult_rides : PyNum
  percent_no_preference : PyNum
  deriving Repr, DecidableEq

/-- The hard-coded archetype parameter table. -/
def BEHAVIOR_ARCHETYPE_PARAMETERS : List (String × ArchetypeParams) :=
  [ ("ride_enthusiast",
      { stay_time_preference := 540, allow_repeats := true, attraction_preference := ⟨6, 10⟩,
        wait_threshold := 480, percent_no_child_rides := 0, percent_no_adult_rides := 1,
        percent_no_preference := 0 }),
    ("ride_favorer",
      { stay_time_preference := 480, allow_repeats := true, attraction_preference := ⟨5, 10⟩,
        wait_threshold := 420, percent_no_child_rides := 0, percent_no_adult_rides := 1,
        percent_no_preference := 0 }),
    ("park_tourer",
      { stay_time_preference := 420, allow_repeats := false, attraction_preference := ⟨4, 10⟩,
        wait_threshold := 360, percent_no_child_rides := 0, percent_no_adult_rides := 1,
        percent_no_preference := 0 }),
    ("park_visitor",
      { stay_time_preference := 360, allow_repeats := false, attraction_preference := ⟨3, 10⟩,
        wait_threshold := 240, percent_no_child_rides := 0, percent_no_adult_rides := 1,
        percent_no_preference := 0 }),
    ("activity_favorer",
      { stay_time_preference := 300, allow_repeats := false, attraction_preference := ⟨2, 10⟩,
        wait_threshold := 180, percent_no_child_rides := 0, percent_no_adult_rides := 1,
        percent_no_preference := 0 }),
    ("activity_enthusiast",
      { stay_time_preference := 240, allow_repeats := false, attraction_preference := ⟨2, 10⟩,
        wait_threshold := 90, percent_no_child_rides := 0, percent_no_adult_rides := 1,
        percent_no_preference := 0 }) ]

/-- The archetype-table validation performed by `Agent.__init__` (age-class
percentages of every archetype must sum to within `[0.98, 1.0]`). -/
def archetypeTableValid : Bool :=
  BEHAVIOR_ARCHETYPE_PARAMETERS.all (fun p =>
    let s := p.2.percent_no_child_rides + p.2.percent_no_adult_rides + p.2.percent_no_preference
    PyNum.le ⟨98, 100⟩ s && PyNum.le s 1)

/-! ## Agent (`agent.py`) -/

/-- The `self.behavior` dictionary fixed by `initialize_agent`. -/
structure Behavior where
  archetype : String
  stay_time_preference : Int
  allow_repeats : Bool
  attraction_preference : PyNum
  wait_threshold : PyNum
  deriving Repr, DecidableEq

/-- An `Agent` object (the `state` dictionary flattened into fields; the
free-text `log` is not modelled). -/
structure Agent where
  agent_id : Nat
  arrival_time : Option Nat
  exit_time : Option Nat
  within_park : Bool
  current_location : Option String
  current_action : Option String
  time_spent_at_current_location : Nat
  expedited_return_time : List PyNum
  expedited_pass : List String
  expedited_pass_ability : Bool
  exp_wait_threshold : PyNum
  exp_limit : Nat
  /-- `state["attractions"]`: per-attraction `times_completed` -/
  attractions_hist : List (String × Nat)
  /-- `state["activities"]`: per-activity `(times_visited, time_spent)` -/
  activities_hist : List (String × (Nat × Nat))
  age_class : String
  behavior : Behavior
  deriving Repr, DecidableEq

/-- `sum(dict.values())`. -/
def sumVals (l : List (String × PyNum)) : PyNum :=
  l.foldl (fun acc p => acc + p.2) 0

/-- The `floor`-accumulator selection used by `select_behavior_archetype`,
`select_age_class` and `select_activity_decision`: first key whose cumulative
weight strictly exceeds the draw; `none` when the loop falls through. -/
def cumSelectLt (rng : PyNum) : List (String × PyNum) → PyNum → Option String
  | [], _ => none
  | (k, w) :: rest, acc =>
    if PyNum.lt rng (acc + w) then some k else cumSelectLt rng rest (acc + w)

/-- `Agent.select_behavior_archetype` (one `random.uniform` draw from the
global stream at state `pst`). -/
def select_behavior_archetype (o : Oracles) (pst : Nat)
    (behavior_archetype_distribution : List (String × PyNum)) : Option String × Nat :=
  let rng := o.pyUniform pst 0 (sumVals behavior_archetype_distribution)
  (cumSelectLt rng behavior_archetype_distribution 0, pst + 1)

/-- `Agent.select_age_class`. -/
def select_age_class (o : Oracles) (pst : Nat) (params : ArchetypeParams) :
    Option String × Nat :=
  let dist := [("no_child_rides", params.percent_no_child_rides),
               ("no_adult_rides", params.percent_no_adult_rides),
               ("no_preference", params.percent_no_preference)]
  let rng := o.pyUniform pst 0 (sumVals dist)
  (cumSelectLt rng dist 0, pst + 1)

/-- `Agent.__init__` + `Agent.initialize_agent`: archetype-table validation,
archetype and age-class selection (two global-stream draws), and the seeded
normal draw for the stay-time preference. -/
def Agent.initialize (o : Oracles) (random_seed : Nat) (pst : Nat)
    (behavior_archetype_distribution : List (String × PyNum)) (exp_ability : Bool)
    (exp_wait_threshold : PyNum) (exp_limit : Nat) (agent_id : Nat)
    (attraction_names activity_names : List String) : Except Err (Agent × Nat) :=
  if !archetypeTableValid then .error .assertionErr
  else
    let (archetype?, pst) := select_behavior_archetype o pst behavior_archetype_distribution
    match archetype? with
    | none => .error .keyErr   -- BEHAVIOR_ARCHETYPE_PARAMETERS[None]
    | some archetype =>
      match BEHAVIOR_ARCHETYPE_PARAMETERS.lookup archetype with
      | none => .error .keyErr
      | some params =>
        let (age?, pst) := select_age_class o pst params
        match age? with
        | none => .error .assertionErr   -- `assert True is False`
        | some age_class =>
          let stay_time_preference : Int :=
            pyInt (PyNum.pymax (o.npNormal (random_seed + agent_id)
              (PyNum.ofNat params.stay_time_preference)
              (PyNum.ofNat params.stay_time_preference / (4 : PyNum))) 0)
          .ok ({ agent_id := agent_id
                 arrival_time := none
                 exit_time := none
                 within_park := false
                 current_location := none
                 current_action := none
                 time_spent_at_current_location := 0
                 expedited_return_time := []
                 expedited_pass := []
                 expedited_pass_ability := exp_ability
                 exp_wait_threshold := exp_wait_threshold
                 exp_limit := exp_limit
                 attractions_hist := attraction_names.map (fun n => (n, 0))
                 activities_hist := activity_names.map (fun n => (n, (0, 0)))
                 age_class := age_class
                 behavior :=
                   { archetype := archetype
                     stay_time_preference := stay_time_preference
                     allow_repeats := params.allow_repeats
                     attraction_preference := params.attraction_preference
                     wait_threshold := params.wait_threshold } }, pst)

/-- `Agent.arrive_at_park(time)`. -/
def Agent.arrive_at_park (ag : Agent) (time : Nat) : Agent :=
  { ag with within_park := true, arrival_time := some time,
            current_location := some "gate", current_action := some "idling",
            time_spent_at_current_location := 0 }

/-- `Agent.decide_to_leave_park(time)`: skipped on the arrival minute;
otherwise the elapsed-time excess is compared against a seeded normal draw
scaled by 60.  (If `arrival_time` were `None` the subtraction would raise.) -/
def Agent.decide_to_leave_park (o : Oracles) (random_seed : Nat) (ag : Agent)
    (time : Nat) : Except Err (Option (String × String)) :=
  match ag.arrival_time with
  | none => .error .typeErr
  | some arrival =>
    if time ≠ arrival then
      let actual_preference_value : Int :=
        ((time : Int) - (arrival : Int)) - ag.behavior.stay_time_preference
      let normal_coinflip : PyNum := o.npNormal (random_seed + ag.agent_id + time) 0 1 * (60 : PyNum)
      if PyNum.lt normal_coinflip (PyNum.ofInt actual_preference_value) then
        .ok (some ("leaving", "gate"))
      else .ok none
    else .ok none

/-- Age-eligibility test used twice in `decide_attraction_or_activity`
(`no_child_rides` agents keep dual-eligible or adult-only rides;
`no_adult_rides` agents keep dual-eligible or child-only rides). -/
def ageEligible (age_class : String) (a : Attraction) : Bool :=
  if age_class = "no_child_rides" then
    (a.child_eligible && a.adult_eligible) || (a.adult_eligible && !a.child_eligible)
  else if age_class = "no_adult_rides" then
    (a.child_eligible && a.adult_eligible) || (a.child_eligible && !a.adult_eligible)
  else true

/-- `Agent.decide_attraction_or_activity`: one uniform draw decides
attraction vs. activity; the eligible-attraction list is filtered by held
passes, repeat policy and age class.  (The `attractions_dict[attraction]`
lookups cannot fail because every filtered name comes from the dict itself or
from the history dict initialized with the same names; an absent name is
rendered as filtered out.) -/
def Agent.decide_attraction_or_activity (o : Oracles) (ag : Agent)
    (attractions_dict : List (String × Attraction)) (pst : Nat) :
    (String × List String) × Nat :=
  let coinflip := o.pyUniform pst 0 1
  let pst := pst + 1
  if PyNum.le coinflip ag.behavior.attraction_preference then
    let base : List String :=
      if ag.behavior.allow_repeats then
        (attractions_dict.map (·.1)).filter (fun k => !ag.expedited_pass.contains k)
      else
        (ag.attractions_hist.filter
          (fun p => p.2 == 0 && !ag.expedited_pass.contains p.1)).map (·.1)
    let valid_attractions : List String :=
      if ag.age_class = "no_child_rides" ∨ ag.age_class = "no_adult_rides" then
        base.filter (fun k =>
          match attractions_dict.lookup k with
          | some a => ageEligible ag.age_class a
          | none => false)
      else base
    if valid_attractions.isEmpty then (("activity", []), pst)
    else (("attraction", valid_attractions), pst)
  else (("activity", []), pst)

/-- The `floor`/`ceiling` weighted pick of `select_attraction_decision`
(the last bucket with `floor < rng <= ceiling` wins, matching the source's
reassignment semantics; `none` when no bucket matches, e.g. `rng = 0`). -/
def pickWeighted (rng : PyNum) (dist : List (String × PyNum)) : Option String :=
  (dist.foldl
    (fun (acc : PyNum × PyNum × Option String) kw =>
      let ceiling := acc.2.1 + kw.2
      let res := if PyNum.lt acc.1 rng && PyNum.le rng ceiling then some kw.1 else acc.2.2
      (acc.1 + kw.2, ceiling, res))
    (0, 0, none)).2.2

/-- The candidate loop of `Agent.select_attraction_decision`.  Each iteration
draws one uniform, re-derives the popularity distribution over the remaining
candidates, and either commits to an action or removes the candidate and
retries.  `desired?` carries Python's loop-scope `desired_attraction`
variable (NameError if referenced before any bucket ever matched;
`list.remove` of an absent element raises ValueError).  Fuel is the entry
length of `valid_attractions`: every recursive call removes one element. -/
def selectAttractionLoop (o : Oracles) (ag : Agent)
    (attractions_dict : List (String × Attraction))
    (attraction_wait_times : List (String × PyNum)) :
    Nat → List String → Option String → Nat →
    Except Err (Option (String × String) × Nat)
  | 0, valid, _, pst =>
    if valid.isEmpty then .ok (none, pst) else .error .fuelErr
  | fuel + 1, valid, desired?, pst =>
    if valid.isEmpty then .ok (none, pst)
    else
      let dist := attractions_dict.filterMap
        (fun p => if valid.contains p.1 then some (p.1, PyNum.ofInt p.2.popularity) else none)
      let rng := o.pyUniform pst 0 (sumVals dist)
      let pst := pst + 1
      let desired? := match pickWeighted rng dist with
        | some d => some d
        | none => desired?
      match desired? with
      | none => .error .nameErr
      | some desired =>
        match attraction_wait_times.lookup desired, attractions_dict.lookup desired with
        | some w, some attr =>
          if PyNum.lt ag.exp_wait_threshold w ∧ ag.expedited_pass_ability = true
              ∧ ag.expedited_pass.length < ag.exp_limit
              ∧ attr.expedited_queue = true ∧ PyNum.lt 0 attr.exp_queue_passes then
            .ok (some ("get pass", desired), pst)
          else if PyNum.lt (ag.behavior.wait_threshold
              + PyNum.ofInt attr.popularity * (6 : PyNum)) w then
            if valid.contains desired then
              selectAttractionLoop o ag attractions_dict attraction_wait_times
                fuel (valid.erase desired) (some desired) pst
            else .error .valueErr
          else if ag.expedited_return_time.any
              (fun rt => PyNum.lt rt (w + PyNum.ofNat attr.run_time)) then
            if valid.contains desired then
              selectAttractionLoop o ag attractions_dict attraction_wait_times
                fuel (valid.erase desired) (some desired) pst
            else .error .valueErr
          else .ok (some ("traveling", desired), pst)
        | _, _ => .error .keyErr

/-- The wait-time dict comprehension at the top of
`select_attraction_decision` (its `if attraction_name in attractions_dict`
filter is vacuously true). -/
def computeWaitTimes (fuelW : Nat) : List (String × Attraction) →
    Except Err (List (String × PyNum))
  | [] => .ok []
  | (k, a) :: rest => do
    let w ← a.get_wait_time fuelW
    let ws ← computeWaitTimes fuelW rest
    .ok ((k, w) :: ws)

/-- `Agent.select_attraction_decision`. -/
def Agent.select_attraction_decision (o : Oracles) (fuelW : Nat) (ag : Agent)
    (attractions_dict : List (String × Attraction)) (valid_attractions : List String)
    (pst : Nat) : Except Err (Option (String × String) × Nat) := do
  let waits ← computeWaitTimes fuelW attractions_dict
  selectAttractionLoop o ag attractions_dict waits
    valid_attractions.length valid_attractions none pst

/-- `Agent.select_activity_decision` (may fall through and return `None`). -/
def Agent.select_activity_decision (o : Oracles)
    (activities_dict : List (String × Activity)) (pst : Nat) :
    Option String × Nat :=
  let dist := activities_dict.map (fun p => (p.1, PyNum.ofInt p.2.popularity))
  let rng := o.pyUniform pst 0 (sumVals dist)
  (cumSelectLt rng dist 0, pst + 1)

/-- `Agent.make_attraction_activity_decision`. -/
def Agent.make_attraction_activity_decision (o : Oracles) (fuelW : Nat) (ag : Agent)
    (attractions_dict : List (String × Attraction))
    (activities_dict : List (String × Activity)) (pst : Nat) :
    Except Err ((String × Option String) × Nat) := do
  let ((desired_decision_type, valid_attractions), pst) :=
    ag.decide_attraction_or_activity o attractions_dict pst
  if desired_decision_type = "activity" then
    let (selected_activity, pst) := Agent.select_activity_decision o activities_dict pst
    .ok (("traveling", selected_activity), pst)
  else
    let (res, pst) ← ag.select_attraction_decision o fuelW attractions_dict valid_attractions pst
    match res with
    | some (action, location) => .ok ((action, some location), pst)
    | none =>
      -- only default to activity if all wait times are too long and no passes available
      let (selected_activity, pst) := Agent.select_activity_decision o activities_dict pst
      .ok (("traveling", selected_activity), pst)

/-- `Agent.make_state_change_decision`.  Source lines 149–152 set
`action = "leaving"` when `park_closed`, but line 155 *unconditionally*
overwrites `action, location` with the result of `decide_to_leave_park`, so
the park-closed branch is dead; `_dead` records it. -/
def Agent.make_state_change_decision (o : Oracles) (fuelW : Nat) (random_seed : Nat)
    (ag : Agent) (attractions_dict : List (String × Attraction))
    (activities_dict : List (String × Activity)) (time : Nat) (park_closed : Bool)
    (pst : Nat) : Except Err ((String × Option String) × Nat) := do
  let _dead : Option (String × String) :=
    if park_closed then some ("leaving", "gate") else none
  let leave? ← ag.decide_to_leave_park o random_seed time
  match leave? with
  | some (action, location) => .ok ((action, some location), pst)
  | none => ag.make_attraction_activity_decision o fuelW attractions_dict activities_dict pst

/-- `Agent.pass_time`. -/
def Agent.pass_time (ag : Agent) : Agent :=
  if ag.within_park then
    let ag := { ag with time_spent_at_current_location := ag.time_spent_at_current_location + 1 }
    if !ag.expedited_pass.isEmpty then
      { ag with expedited_return_time := ag.expedited_return_time.map (· - (1 : PyNum)) }
    else ag
  else ag

/-- `Agent.leave_park(time)`. -/
def Agent.leave_park (ag : Agent) (time : Nat) : Agent :=
  { ag with within_park := false, current_location := some "outside park",
            current_action := none, exit_time := some time,
            time_spent_at_current_location := 0 }

/-- `Agent.enter_queue(attraction, time)`. -/
def Agent.enter_queue (ag : Agent) (attraction : String) : Agent :=
  { ag with current_location := some attraction, current_action := some "queueing",
            time_spent_at_current_location := 0 }

/-- `Agent.begin_activity(activity, time)`. -/
def Agent.begin_activity (ag : Agent) (activity : String) : Agent :=
  { ag with current_location := some activity, current_action := some "browsing",
            time_spent_at_current_location := 0 }

/-- `Agent.get_pass(attraction, time)`. -/
def Agent.get_pass (ag : Agent) (attraction : String) : Agent :=
  { ag with current_location := some "gate", current_action := some "getting pass",
            expedited_pass := ag.expedited_pass ++ [attraction],
            time_spent_at_current_location := 0 }

/-- `Agent.assign_expedited_return_time(expedited_wait_time)`. -/
def Agent.assign_expedited_return_time (ag : Agent) (expedited_wait_time : PyNum) : Agent :=
  { ag with expedited_return_time := ag.expedited_return_time ++ [expedited_wait_time],
            current_action := some "idling" }

/-- Index of the *last* occurrence of `x` (the source's scan keeps
overwriting `ind_to_remove`). -/
def lastIdxOf (l : List String) (x : String) : Option Nat :=
  ((l.enum.filter (fun p => p.2 == x)).getLast?).map (·.1)

/-- `Agent.return_exp_pass(attraction)`: deletes the last matching held pass
and its aligned return time (`del lst[None]` raises when there is no match). -/
def Agent.return_exp_pass (ag : Agent) (attraction : String) : Except Err Agent :=
  match lastIdxOf ag.expedited_pass attraction with
  | none => .error .typeErr
  | some i => .ok { ag with expedited_pass := ag.expedited_pass.eraseIdx i,
                            expedited_return_time := ag.expedited_return_time.eraseIdx i }

/-- `Agent.agent_exited_attraction(name, time)` (KeyError if `name` is not a
key of the per-agent attraction history). -/
def Agent.agent_exited_attraction (ag : Agent) (name : String) : Except Err Agent :=
  match ag.attractions_hist.lookup name with
  | none => .error .keyErr
  | some n => .ok { ag with current_location := some "gate", current_action := some "idling",
                            attractions_hist := dictUpdate name (n + 1) ag.attractions_hist,
                            time_spent_at_current_location := 0 }

/-- `Agent.agent_boarded_attraction(name, time)`: redeems (removes) a held
pass when one matches; returns the updated agent and the redemption flag. -/
def Agent.agent_boarded_attraction (ag : Agent) (name : String) : Agent × Bool :=
  if ag.expedited_pass.contains name then
    let ag' := match lastIdxOf ag.expedited_pass name with
      | some i => { ag with expedited_pass := ag.expedited_pass.eraseIdx i,
                            expedited_return_time := ag.expedited_return_time.eraseIdx i }
      | none => ag
    ({ ag' with current_location := some name, current_action := some "riding",
                time_spent_at_current_location := 0 }, true)
  else
    ({ ag with current_location := some name, current_action := some "riding",
               time_spent_at_current_location := 0 }, false)

/-- `Agent.agent_exited_activity(name, time)`. -/
def Agent.agent_exited_activity (ag : Agent) (name : String) : Except Err Agent :=
  match ag.activities_hist.lookup name with
  | none => .error .keyErr
  | some vt => .ok { ag with current_location := some "gate", current_action := some "idling",
                             activities_hist := dictUpdate name (vt.1 + 1, vt.2) ag.activities_hist,
                             time_spent_at_current_location := 0 }

/-! ## Park (`park.py`) -/

/-- The configuration a `Park` is constructed with (constructor arguments and
the arguments of the four `generate_*` setup calls). -/
structure ParkConfig where
  attraction_list : List AttractionChars
  activity_list : List ActivityChars
  arrival_seed : List (String × PyNum)
  total_daily_agents : Nat
  perfect_arrivals : Bool
  behavior_archetype_distribution : List (String × PyNum)
  exp_ability_pct : PyNum
  exp_wait_threshold : PyNum
  exp_limit : Nat

/-- `sum(self.schedule.values())`. -/
def schedSum (schedule : List (Nat × Int)) : Int :=
  (schedule.map (·.2)).sum

/-- The Poisson-sampling loop of `generate_arrival_schedule` (source lines
72–88): per hour, note the park-closing quirk (`not self.park_close` is also
true when `park_close == 0`, so a first hour with 0% lets a later 0% hour
overwrite it), then sample 60 minute-buckets with `default_rng(seed+hour)`. -/
def sampleSchedule (o : Oracles) (random_seed : Nat)
    (arrival_seed : List (String × PyNum)) (total_daily_agents : Nat) :
    List (Nat × Int) × Option Nat :=
  arrival_seed.enum.foldl
    (fun (acc : List (Nat × Int) × Option Nat) hp =>
      let hour := hp.1
      let arrival_pct := hp.2.2
      let park_close :=
        if arrival_pct.eqb 0 ∧ (acc.2 = none ∨ acc.2 = some 0) then some (hour * 60) else acc.2
      let expected_minute_agents : PyNum :=
        (PyNum.ofNat total_daily_agents * arrival_pct * ((1 : PyNum) / (100 : PyNum)))
          / (60 : PyNum)
      let sched := (List.range 60).foldl
        (fun sch minute =>
          dictUpdate (hour * 60 + minute)
            ((o.npPoisson (random_seed + hour) expected_minute_agents minute : Int)) sch)
        acc.1
      (sched, park_close))
    ([], none)

/-- The perfect-arrivals correction loop (`d = -1` when the sampled total is
too high, `d = +1` when too low): `random.choice` over the keys with positive
count raises IndexError on an empty candidate list. -/
def correctionLoop (o : Oracles) (d : Int) :
    Nat → List (Nat × Int) → Nat → Except Err (List (Nat × Int) × Nat)
  | 0, sched, pst => .ok (sched, pst)
  | n + 1, sched, pst =>
    let pos := (sched.filter (fun p => 0 < p.2)).map (·.1)
    match pos with
    | [] => .error .indexErr
    | _ :: _ =>
      let idx := o.pyChoice pst pos.length % pos.length
      let rng_key := pos.getD idx 0
      match sched.lookup rng_key with
      | none => .error .keyErr
      | some v => correctionLoop o d n (dictUpdate rng_key (v + d) sched) (pst + 1)

/-- `Park.generate_arrival_schedule(arrival_seed, total_daily_agents,
perfect_arrivals)`: validation, Poisson sampling, `random.seed(random_seed)`,
optional exact-total correction, and the final `assert`.  Returns the
schedule, the derived `park_close` and the global `random` stream state. -/
def generate_arrival_schedule (o : Oracles) (random_seed : Nat)
    (arrival_seed : List (String × PyNum)) (total_daily_agents : Nat)
    (perfect_arrivals : Bool) : Except Err (List (Nat × Int) × Option Nat × Nat) :=
  if !((sumVals arrival_seed).eqb 100) then .error .assertionErr
  else if 24 < arrival_seed.length then .error .assertionErr
  else
    let sp := sampleSchedule o random_seed arrival_seed total_daily_agents
    let pst := random_seed
    if perfect_arrivals then
      let dif := schedSum sp.1 - (total_daily_agents : Int)
      match
        (if 0 < dif then correctionLoop o (-1) dif.toNat sp.1 pst
         else if dif < 0 then correctionLoop o 1 (-dif).toNat sp.1 pst
         else .ok (sp.1, pst)) with
      | .error err => .error err
      | .ok (schedule, pst) =>
        if schedSum schedule ≠ (total_daily_agents : Int) then .error .assertionErr
        else .ok (schedule, sp.2, pst)
    else .ok (sp.1, sp.2, pst)

/-- The per-agent loop of `Park.generate_agents`: reseed the global stream
with `seed + agent_id`, draw the expedited-ability coin, then initialize. -/
def agentsLoop (o : Oracles) (random_seed : Nat)
    (behavior_archetype_distribution : List (String × PyNum)) (exp_ability_pct : PyNum)
    (exp_wait_threshold : PyNum) (exp_limit : Nat)
    (attraction_names activity_names : List String) :
    List Nat → List (Nat × Agent) → Nat → Except Err (List (Nat × Agent) × Nat)
  | [], acc, pst => .ok (acc, pst)
  | agent_id :: rest, acc, _pst =>
    let pst := random_seed + agent_id
    let exp_ability := PyNum.lt (o.pyUniform pst 0 1) exp_ability_pct
    let pst := pst + 1
    match Agent.initialize o random_seed pst behavior_archetype_distribution exp_ability
        exp_wait_threshold exp_limit agent_id attraction_names activity_names with
    | .error err => .error err
    | .ok (ag, pst) =>
      agentsLoop o random_seed behavior_archetype_distribution exp_ability_pct
        exp_wait_threshold exp_limit attraction_names activity_names
        rest (acc ++ [(agent_id, ag)]) pst

/-- `Park.generate_agents`. -/
def generate_agents (o : Oracles) (random_seed : Nat)
    (behavior_archetype_distribution : List (String × PyNum)) (exp_ability_pct : PyNum)
    (exp_wait_threshold : PyNum) (exp_limit : Nat) (schedule : List (Nat × Int))
    (attraction_names activity_names : List String) (pst : Nat) :
    Except Err (List (Nat × Agent) × Nat) :=
  if !((sumVals behavior_archetype_distribution).eqb 100) then .error .assertionErr
  else
    agentsLoop o random_seed behavior_archetype_distribution exp_ability_pct
      exp_wait_threshold exp_limit attraction_names activity_names
      (List.range (schedSum schedule).toNat) [] pst

/-- Stable insertion sort (Python's `sorted` is stable; `List.mergeSort` is
avoided because well-founded definitions do not reduce in the kernel). -/
def stableInsert (le : α → α → Bool) (x : α) : List α → List α
  | [] => [x]
  | y :: ys => if le x y then x :: y :: ys else y :: stableInsert le x ys

/-- See `stableInsert`. -/
def stableSort (le : α → α → Bool) : List α → List α
  | [] => []
  | x :: xs => stableInsert le x (stableSort le xs)

/-- `Park.generate_attractions`: stable sort by popularity, then construct. -/
def generate_attractions (attraction_list : List AttractionChars) :
    Except Err (List (String × Attraction)) :=
  go (stableSort (fun a b => decide (a.popularity ≤ b.popularity)) attraction_list) []
where
  go : List AttractionChars → List (String × Attraction) → Except Err (List (String × Attraction))
  | [], acc => .ok acc
  | c :: rest, acc =>
    match Attraction.init c with
    | .error err => .error err
    | .ok a => go rest (dictUpdate c.name a acc)

/-- `Park.generate_activities`. -/
def generate_activities (activity_list : List ActivityChars) (random_seed : Nat) :
    Except Err (List (String × Activity)) :=
  go (stableSort (fun a b => decide (a.popularity ≤ b.popularity)) activity_list) []
where
  go : List ActivityChars → List (String × Activity) → Except Err (List (String × Activity))
  | [], acc => .ok acc
  | c :: rest, acc =>
    match Activity.init c random_seed with
    | .error err => .error err
    | .ok a => go rest (dictUpdate c.name a acc)

/-- The full mutable state of a `Park` object mid-simulation.  `epos` is the
position in the ambient entropy stream consumed by the unseeded global NumPy
generator (see `Activity.add_to_activity`). -/
structure ParkState where
  random_seed : Nat
  schedule : List (Nat × Int)
  agents : List (Nat × Agent)
  attractions : List (String × Attraction)
  activities : List (String × Activity)
  total_active_agents : List (Nat × Nat)
  distributed_passes : Nat
  redeemed_passes : Nat
  time : Nat
  arrival_index : Nat
  park_close : Option Nat
  pyState : Nat
  epos : Nat
  deriving Repr, DecidableEq

/-- `Park.__init__` followed by the four `generate_*` setup calls (schedule,
agents, attractions, activities), as driven by the simulation notebook. -/
def Park.build (o : Oracles) (random_seed : Nat) (cfg : ParkConfig) :
    Except Err ParkState :=
  match generate_arrival_schedule o random_seed cfg.arrival_seed
      cfg.total_daily_agents cfg.perfect_arrivals with
  | .error err => .error err
  | .ok (schedule, park_close, pst) =>
    match generate_agents o random_seed cfg.behavior_archetype_distribution
        cfg.exp_ability_pct cfg.exp_wait_threshold cfg.exp_limit schedule
        (cfg.attraction_list.map (·.name)) (cfg.activity_list.map (·.name)) pst with
    | .error err => .error err
    | .ok (agents, pst) =>
      match generate_attractions cfg.attraction_list with
      | .error err => .error err
      | .ok attractions =>
        match generate_activities cfg.activity_list random_seed with
        | .error err => .error err
        | .ok activities =>
          .ok { random_seed := random_seed
                schedule := schedule
                agents := agents
                attractions := attractions
                activities := activities
                total_active_agents := []
                distributed_passes := 0
                redeemed_passes := 0
                time := 0
                arrival_index := 0
                park_close := park_close
                pyState := pst
                epos := 0 }

/-- The arrival-release loop at the top of `Park.step` (KeyError if an agent
index is missing from the registry). -/
def arriveLoop (time : Nat) : List Nat → ParkState → Except Err ParkState
  | [], s => .ok s
  | i :: rest, s =>
    match s.agents.lookup i with
    | none => .error .keyErr
    | some ag =>
      arriveLoop time rest { s with agents := dictUpdate i (ag.arrive_at_park time) s.agents }

/-- `Park.get_idle_agent_ids`. -/
def getIdleAgentIds (s : ParkState) : List Nat :=
  (s.agents.filter (fun p => p.2.within_park && p.2.current_action == some "idling")).map (·.1)

/-- The `for attraction in agent.state["expedited_pass"]:` body of the
"leaving" branch of `update_park_state`.  Python iterates the *live* list by
index while `return_exp_pass` deletes from it, so after deleting index `i`
the iterator moves to index `i+1` of the shrunk list (skipping one element);
this is modelled exactly by the index counter `i` re-read against the shrunk
list each round. -/
def leaveReturnLoop (fuel : Nat) (i : Nat) (attractions : List (String × Attraction))
    (ag : Agent) : Except Err (List (String × Attraction) × Agent) :=
  match fuel with
  | 0 => .error .fuelErr
  | fuel + 1 =>
    if h : i < ag.expedited_pass.length then
      let attraction := ag.expedited_pass.get ⟨i, h⟩
      match attractions.lookup attraction with
      | none => .error .keyErr
      | some attr =>
        match attr.return_pass ag.agent_id with
        | .error err => .error err
        | .ok attr' =>
          match ag.return_exp_pass attraction with
          | .error err => .error err
          | .ok ag' =>
            leaveReturnLoop fuel (i + 1) (dictUpdate attraction attr' attractions) ag'
    else .ok (attractions, ag)

/-- `Park.update_park_state(agent, action, location, time, attractions)`. -/
def Park.update_park_state (o : Oracles) (e : Nat → PyNum) (fuelW : Nat) (s : ParkState)
    (agent_id : Nat) (action : String) (location : Option String) :
    Except Err ParkState :=
  match s.agents.lookup agent_id with
  | none => .error .keyErr
  | some ag =>
    if action = "leaving" then
      match
        (if !ag.expedited_pass.isEmpty then
          leaveReturnLoop (ag.expedited_pass.length + 1) 0 s.attractions ag
        else .ok (s.attractions, ag)) with
      | .error err => .error err
      | .ok (attractions, ag) =>
        let ag := ag.leave_park s.time
        .ok { s with attractions := attractions, agents := dictUpdate agent_id ag s.agents }
    else if action = "traveling" then
      match location with
      | none => .ok s
      | some loc =>
        -- `if location in self.attractions:`
        let sa : ParkState × Agent :=
          match s.attractions.lookup loc with
          | some attr =>
            let ag := ag.enter_queue loc
            ({ s with attractions := dictUpdate loc (attr.add_to_queue agent_id) s.attractions,
                      agents := dictUpdate agent_id ag s.agents }, ag)
          | none => (s, ag)
        -- `if location in self.activities:`
        match (sa.1.activities.lookup loc) with
        | some act =>
          let s := sa.1
          let ag := sa.2.begin_activity loc
          let (act', epos') := act.add_to_activity o e s.epos agent_id ag.expedited_return_time
          .ok { s with activities := dictUpdate loc act' s.activities,
                       agents := dictUpdate agent_id ag s.agents, epos := epos' }
        | none => .ok sa.1
    else if action = "get pass" then
      match location with
      | none => .error .keyErr
      | some loc =>
        let ag := ag.get_pass loc
        match s.attractions.lookup loc with
        | none => .error .keyErr
        | some attr =>
          let attr := attr.remove_pass
          match attr.add_to_exp_queue fuelW agent_id with
          | .error err => .error err
          | .ok (attr', expedited_wait_time) =>
            let ag := ag.assign_expedited_return_time expedited_wait_time
            .ok { s with attractions := dictUpdate loc attr' s.attractions,
                         agents := dictUpdate agent_id ag s.agents }
    else .ok s

/-- The idle-agent decision loop of `Park.step` (source lines 168–183): the
`park_closed` argument evaluates `self.park_close <= self.time`, which raises
TypeError when `park_close` is `None` — but only if an idle agent exists. -/
def processIdleAgents (o : Oracles) (e : Nat → PyNum) (fuelW : Nat) :
    List Nat → ParkState → Except Err ParkState
  | [], s => .ok s
  | agent_id :: rest, s =>
    match s.park_close with
    | none => .error .typeErr
    | some pc =>
      match s.agents.lookup agent_id with
      | none => .error .keyErr
      | some ag =>
        match ag.make_state_change_decision o fuelW s.random_seed s.attractions
            s.activities s.time (decide (pc ≤ s.time)) s.pyState with
        | .error err => .error err
        | .ok ((action, location), pst') =>
          let s := { s with pyState := pst' }
          let s := if action = "get pass" then
              { s with distributed_passes := s.distributed_passes + 1 } else s
          match Park.update_park_state o e fuelW s agent_id action location with
          | .error err => .error err
          | .ok s => processIdleAgents o e fuelW rest s

/-- The per-exiting-agent loop of the attraction-processing phase. -/
def exitedLoop (name : String) : List Nat → ParkState → Except Err ParkState
  | [], s => .ok s
  | agent_id :: rest, s =>
    match s.agents.lookup agent_id with
    | none => .error .keyErr
    | some ag =>
      match ag.agent_exited_attraction name with
      | .error err => .error err
      | .ok ag' => exitedLoop name rest { s with agents := dictUpdate agent_id ag' s.agents }

/-- The per-loaded-agent loop of the attraction-processing phase: a browsing
agent is first force-exited from its activity, then boards (possibly
redeeming a pass, counted in `redeemed_passes`). -/
def boardedLoop (name : String) : List Nat → ParkState → Except Err ParkState
  | [], s => .ok s
  | agent_id :: rest, s =>
    match s.agents.lookup agent_id with
    | none => .error .keyErr
    | some ag =>
      match
        ((if ag.current_action == some "browsing" then
          match ag.current_location with
          | none => .error .keyErr
          | some loc =>
            match s.activities.lookup loc with
            | none => .error .keyErr
            | some act =>
              match act.force_exit agent_id with
              | .error err => .error err
              | .ok act' =>
                match ag.agent_exited_activity loc with
                | .error err => .error err
                | .ok ag' =>
                  .ok ({ s with activities := dictUpdate loc act' s.activities,
                                agents := dictUpdate agent_id ag' s.agents }, ag')
        else .ok (s, ag)) : Except Err (ParkState × Agent)) with
      | .error err => .error err
      | .ok (s, ag) =>
        let agr := ag.agent_boarded_attraction name
        let s := { s with agents := dictUpdate agent_id agr.1 s.agents,
                          redeemed_passes :=
                            if agr.2 then s.redeemed_passes + 1 else s.redeemed_passes }
        boardedLoop name rest s

/-- The attraction-processing phase of `Park.step` (source lines 186–200),
iterating the registry keys in insertion (popularity-sorted) order. -/
def processAttractions : List String → ParkState → Except Err ParkState
  | [], s => .ok s
  | name :: rest, s =>
    match s.attractions.lookup name with
    | none => .error .keyErr
    | some attr =>
      match attr.step s.time s.park_close with
      | .error err => .error err
      | .ok (attr', exiting_agents, loaded_agents) =>
        let s := { s with attractions := dictUpdate name attr' s.attractions }
        match exitedLoop name exiting_agents s with
        | .error err => .error err
        | .ok s =>
          match boardedLoop name loaded_agents s with
          | .error err => .error err
          | .ok s => processAttractions rest s

/-- The per-exiting-agent loop of the activity-processing phase. -/
def activityExitedLoop (name : String) : List Nat → ParkState → Except Err ParkState
  | [], s => .ok s
  | agent_id :: rest, s =>
    match s.agents.lookup agent_id with
    | none => .error .keyErr
    | some ag =>
      match ag.agent_exited_activity name with
      | .error err => .error err
      | .ok ag' => activityExitedLoop name rest { s with agents := dictUpdate agent_id ag' s.agents }

/-- The activity-processing phase of `Park.step` (source lines 203–206). -/
def processActivities : List String → ParkState → Except Err ParkState
  | [], s => .ok s
  | name :: rest, s =>
    match s.activities.lookup name with
    | none => .error .keyErr
    | some act =>
      match act.step with
      | .error err => .error err
      | .ok (act', exiting_agents) =>
        let s := { s with activities := dictUpdate name act' s.activities }
        match activityExitedLoop name exiting_agents s with
        | .error err => .error err
        | .ok s => processActivities rest s

/-- The attraction clock/history loop of `Park.step` (per attraction:
`pass_time()` then `store_history(time)`, in registry order). -/
def attractionClockLoop (fuelW time : Nat) :
    List (String × Attraction) → Except Err (List (String × Attraction))
  | [] => .ok []
  | (k, a) :: rest =>
    match (a.pass_time).store_history fuelW time with
    | .error err => .error err
    | .ok a' =>
      match attractionClockLoop fuelW time rest with
      | .error err => .error err
      | .ok rest' => .ok ((k, a') :: rest')

/-- The clock/history phase of `Park.step` (source lines 209–216). -/
def passTimePhase (fuelW : Nat) (s : ParkState) : Except Err ParkState :=
  let s := { s with agents := s.agents.map (fun (p : Nat × Agent) => (p.1, p.2.pass_time)) }
  match attractionClockLoop fuelW s.time s.attractions with
  | .error err => .error err
  | .ok attractions =>
    .ok { s with attractions := attractions,
                 activities := s.activities.map
                   (fun (p : String × Activity) => (p.1, (p.2.pass_time).store_history s.time)) }

/-- `Park.calculate_total_active_agents`. -/
def Park.calculate_total_active_agents (s : ParkState) : ParkState :=
  { s with total_active_agents :=
      dictUpdate s.time (s.agents.filter (fun p => p.2.within_park)).length s.total_active_agents }

/-- `Park.step()`: one simulated minute. -/
def Park.step (o : Oracles) (e : Nat → PyNum) (fuelW : Nat) (s : ParkState) :
    Except Err ParkState :=
  match s.schedule.lookup s.time with
  | none => .error .keyErr
  | some total_arrivals =>
    let ids := (List.range total_arrivals.toNat).map (s.arrival_index + ·)
    match arriveLoop s.time ids s with
    | .error err => .error err
    | .ok s =>
      let s := { s with arrival_index := s.arrival_index + total_arrivals.toNat }
      match processIdleAgents o e fuelW (getIdleAgentIds s) s with
      | .error err => .error err
      | .ok s =>
        match processAttractions (s.attractions.map (·.1)) s with
        | .error err => .error err
        | .ok s =>
          match processActivities (s.activities.map (·.1)) s with
          | .error err => .error err
          | .ok s =>
            match passTimePhase fuelW s with
            | .error err => .error err
            | .ok s =>
              let s := Park.calculate_total_active_agents s
              .ok { s with time := s.time + 1 }

/-- Iterated `Park.step`. -/
def Park.runSteps (o : Oracles) (e : Nat → PyNum) (fuelW : Nat) :
    Nat → ParkState → Except Err ParkState
  | 0, s => .ok s
  | n + 1, s =>
    match Park.step o e fuelW s with
    | .error err => .error err
    | .ok s' => Park.runSteps o e fuelW n s'

/-- A whole engine run: construct the park from its configuration and base
seed, then run `n` simulated minutes. -/
def Park.run (o : Oracles) (e : Nat → PyNum) (fuelW : Nat) (random_seed : Nat)
    (cfg : ParkConfig) (n : Nat) : Except Err ParkState :=
  match Park.build o random_seed cfg with
  | .error err => .error err
  | .ok s => Park.runSteps o e fuelW n s

/-- Every registered activity carries a truthy (nonzero) `random_seed`, so
`Activity.add_to_activity` always takes its seeded branch and never touches
the ambient entropy stream. -/
def SeededOK (s : ParkState) : Prop :=
  ∀ p ∈ s.activities, p.2.random_seed ≠ 0

/-! ## Reachability relations used by the invariant claims -/

/-- States of one `Attraction` object reachable through its public
operations, starting from `Attraction.init` on characteristics with a
well-formed expedited seat ratio (the configuration contract demands
`expedited_queue_ratio ∈ [0,1]`). -/
inductive Attraction.Reachable : Attraction → Prop where
  | init (c : AttractionChars) (a : Attraction) :
      0 < c.exp_queue_frac.den → PyNum.le 0 c.exp_queue_frac = true →
      PyNum.le c.exp_queue_frac 1 = true →
      Attraction.init c = .ok a → Attraction.Reachable a
  | step (a : Attraction) (time : Nat) (park_close : Option Nat)
      (r : Attraction × List Nat × List Nat) :
      Attraction.Reachable a → a.step time park_close = .ok r → Attraction.Reachable r.1
  | addQueue (a : Attraction) (agent_id : Nat) :
      Attraction.Reachable a → Attraction.Reachable (a.add_to_queue agent_id)
  | addExpQueue (a : Attraction) (fuelW agent_id : Nat) (r : Attraction × PyNum) :
      Attraction.Reachable a → a.add_to_exp_queue fuelW agent_id = .ok r →
      Attraction.Reachable r.1
  | removePass (a : Attraction) :
      Attraction.Reachable a → Attraction.Reachable a.remove_pass
  | returnPass (a : Attraction) (agent_id : Nat) (a' : Attraction) :
      Attraction.Reachable a → a.return_pass agent_id = .ok a' → Attraction.Reachable a'
  | passTime (a : Attraction) :
      Attraction.Reachable a → Attraction.Reachable a.pass_time
  | storeHistory (a : Attraction) (fuelW time : Nat) (a' : Attraction) :
      Attraction.Reachable a → a.store_history fuelW time = .ok a' → Attraction.Reachable a'

/-- Pass-holding states `(expedited_pass, expedited_return_time)` of one
agent reachable through the engine-invoked operations that touch them: the
applied "get pass" decision (`get_pass` + `assign_expedited_return_time`,
guarded by the actual decision function), `return_exp_pass` (the leave-park
path), `agent_boarded_attraction` (redemption) and `pass_time`. -/
inductive PassReach : List String → List PyNum → Prop where
  | init : PassReach [] []
  | getPass (o : Oracles) (fuelW random_seed : Nat) (ag : Agent)
      (attractions_dict : List (String × Attraction))
      (activities_dict : List (String × Activity)) (time : Nat) (park_closed : Bool)
      (pst pst' : Nat) (loc : String) (w : PyNum) :
      PassReach ag.expedited_pass ag.expedited_return_time →
      ag.make_state_change_decision o fuelW random_seed attractions_dict activities_dict
        time park_closed pst = .ok (("get pass", some loc), pst') →
      PassReach (ag.expedited_pass ++ [loc]) (ag.expedited_return_time ++ [w])
  | returnPass (ag : Agent) (x : String) (ag' : Agent) :
      PassReach ag.expedited_pass ag.expedited_return_time →
      ag.return_exp_pass x = .ok ag' →
      PassReach ag'.expedited_pass ag'.expedited_return_time
  | boarded (ag : Agent) (name : String) :
      PassReach ag.expedited_pass ag.expedited_return_time →
      PassReach (ag.agent_boarded_attraction name).1.expedited_pass
        (ag.agent_boarded_attraction name).1.expedited_return_time
  | tick (ag : Agent) :
      PassReach ag.expedited_pass ag.expedited_return_time →
      PassReach ag.pass_time.expedited_pass ag.pass_time.expedited_return_time

/-- Whether an `Except` result is a success. -/
def exceptOk : Except Err α → Bool
  | .ok _ => true
  | .error _ => false

instance [DecidableEq ε] [DecidableEq α] : DecidableEq (Except ε α) := fun x y =>
  match x, y with
  | .ok a, .ok b =>
    if h : a = b then .isTrue (congrArg Except.ok h)
    else .isFalse (fun hh => h (Except.ok.inj hh))
  | .error a, .error b =>
    if h : a = b then .isTrue (congrArg Except.error h)
    else .isFalse (fun hh => h (Except.error.inj hh))
  | .ok _, .error _ => .isFalse (fun hh => Except.noConfusion hh)
  | .error _, .ok _ => .isFalse (fun hh => Except.noConfusion hh)

/-! ## Concrete instances used by counterexamples and witnesses -/

/-- Concrete oracle algorithms: normal draws are 0, Poisson puts a single
arrival at minute 0 of every hour with a positive rate and nothing elsewhere,
uniforms return the midpoint, choices pick index 0. -/
def oA : Oracles :=
  { npNormal := fun _ _ _ => 0
    npPoisson := fun _ lam i => if i = 0 ∧ ¬ lam.eqb 0 then 1 else 0
    pyUniform := fun _ lo hi => (lo + hi) / (2 : PyNum)
    pyChoice := fun _ _ => 0 }

/-- Oracle whose seeded normal draws are huge (the leave-decision coin always
says "stay") and whose Poisson draws are all zero. -/
def oStay : Oracles :=
  { npNormal := fun _ _ _ => 1000
    npPoisson := fun _ _ _ => 0
    pyUniform := fun _ lo hi => (lo + hi) / (2 : PyNum)
    pyChoice := fun _ _ => 0 }

/-- Ambient unseeded-NumPy entropy streams of two separate runs. -/
def entropyOne : Nat → PyNum := fun _ => 1

/-- See `entropyOne`. -/
def entropyThree : Nat → PyNum := fun _ => 3

/-- One activity used by several concrete scenarios. -/
def actA : ActivityChars := { name := "act", popularity := 5, mean_time := 3 }

/-- Configuration of the two-run divergence scenario: one agent arriving at
minute 0, no attractions, one activity, park closing at minute 60. -/
def cfgC3 : ParkConfig :=
  { attraction_list := []
    activity_list := [actA]
    arrival_seed := [("h0", 100), ("h1", 0)]
    total_daily_agents := 1
    perfect_arrivals := true
    behavior_archetype_distribution := [("ride_enthusiast", 100)]
    exp_ability_pct := 0
    exp_wait_threshold := 30
    exp_limit := 3 }

/-- Configuration whose arrival table has no zero-percentage hour (so
`park_close` stays `None`) and which generates no agents under the all-zero
Poisson oracle. -/
def cfgC10 : ParkConfig :=
  { attraction_list := []
    activity_list := []
    arrival_seed := [("h0", 100)]
    total_daily_agents := 0
    perfect_arrivals := true
    behavior_archetype_distribution := [("ride_enthusiast", 100)]
    exp_ability_pct := 0
    exp_wait_threshold := 30
    exp_limit := 3 }

/-- Configuration with an all-nonzero arrival table (so `park_close` stays
`None`) that *does* deliver one arriving — hence idling — agent at minute 0
under `oA`, exhibiting the TypeError tick of C10. -/
def cfgC10b : ParkConfig :=
  { attraction_list := []
    activity_list := [actA]
    arrival_seed := [("h0", 100)]
    total_daily_agents := 1
    perfect_arrivals := true
    behavior_archetype_distribution := [("ride_enthusiast", 100)]
    exp_ability_pct := 0
    exp_wait_threshold := 30
    exp_limit := 3 }

/-- The park state built from `cfgC10b` (the fallback arm is never taken). -/
def sC10b : ParkState :=
  match Park.build oA 1 cfgC10b with
  | .ok s => s
  | .error _ =>
    { random_seed := 0, schedule := [], agents := [], attractions := [],
      activities := [], total_active_agents := [], distributed_passes := 0,
      redeemed_passes := 0, time := 0, arrival_index := 0, park_close := some 0,
      pyState := 0, epos := 0 }

/-- The arrival-schedule result for `cfgC10b`'s table (fallback never taken). -/
def rC10 : List (Nat × Int) × Option Nat × Nat :=
  match generate_arrival_schedule oA 1 cfgC10b.arrival_seed 1 true with
  | .ok r => r
  | .error _ => ([], some 0, 0)

/-- A live `Activity` object for decision scenarios. -/
def actObjA : Activity :=
  { name := "act", popularity := 5, mean_time := 3, random_seed := 1,
    visitors := [], visitor_time_remaining := [], hist_total_vistors := [] }

/-- An idling in-park agent that arrived at minute 0 with stay-time
preference 0 (used to evidence the dead park-closed branch). -/
def agC1 : Agent :=
  { agent_id := 0, arrival_time := some 0, exit_time := none, within_park := true,
    current_location := some "gate", current_action := some "idling",
    time_spent_at_current_location := 0, expedited_return_time := [],
    expedited_pass := [], expedited_pass_ability := false, exp_wait_threshold := 30,
    exp_limit := 3, attractions_hist := [], activities_hist := [("act", (0, 0))],
    age_class := "no_adult_rides",
    behavior := { archetype := "ride_enthusiast", stay_time_preference := 0,
                  allow_repeats := true, attraction_preference := ⟨6, 10⟩,
                  wait_threshold := 480 } }

/-- A non-expedited attraction in the steady state of the specification's
wait-time scenario: `run_time = 10`, `hourly_throughput = 60` (capacity 10),
25 agents in the standby queue, 7 minutes left in the current cycle. -/
def attrC7 : Attraction :=
  { name := "ride", run_time := 10, hourly_throughput := 60, popularity := 5,
    child_eligible := true, adult_eligible := true, expedited_queue := false,
    exp_queue_frac := 0, run_time_remaining := 7, exp_queue_passes := 0,
    agents_in_attraction := [], queue := List.range 25, exp_queue := [],
    exp_queue_passes_distributed := 0, hist_queue_length := [],
    hist_queue_wait_time := [], hist_exp_queue_length := [],
    hist_exp_queue_wait_time := [] }

/-- An expedited-queue variant of `attrC7` (ratio 1/2). -/
def attrC5 : Attraction :=
  { attrC7 with expedited_queue := true, exp_queue_frac := ⟨1, 2⟩ }

/-- Characteristics of an expedited-queue attraction (ratio 1/2). -/
def attrCharsC2 : AttractionChars :=
  { name := "coaster", run_time := 10, hourly_throughput := 60, popularity := 5,
    child_eligible := true, adult_eligible := true, expedited_queue := true,
    exp_queue_frac := ⟨1, 2⟩ }

/-- The `Attraction.init` result for `attrCharsC2`. -/
def attrC2 : Attraction :=
  { name := "coaster", run_time := 10, hourly_throughput := 60, popularity := 5,
    child_eligible := true, adult_eligible := true, expedited_queue := true,
    exp_queue_frac := ⟨1, 2⟩, run_time_remaining := 0, exp_queue_passes := 0,
    agents_in_attraction := [], queue := [], exp_queue := [],
    exp_queue_passes_distributed := 0, hist_queue_length := [], hist_queue_wait_time := [],
    hist_exp_queue_length := [], hist_exp_queue_wait_time := [] }

/-- The result of one step of `attrC2` at opening time, with closing minute 600. -/
def rC2 : Attraction × List Nat × List Nat :=
  match attrC2.step 0 (some 600) with
  | .ok r => r
  | .error _ => (attrC2, [], [])

/-- An expedited-capable idling agent with a low personal expedited-wait
threshold (20 < the 27-minute wait of `attrC9`). -/
def agC9 : Agent :=
  { agC1 with expedited_pass_ability := true, exp_wait_threshold := 20,
              attractions_hist := [("ride", 0)] }

/-- `attrC5` with a positive issuable pass budget. -/
def attrC9 : Attraction :=
  { attrC5 with exp_queue_passes := ⟨5, 1⟩ }

/-! ## Semantics of `PyNum` (denotation lemmas used by the proofs) -/

namespace PyNum

theorem den_ofNat (n : Nat) : (ofNat n).den = 1 := rfl

theorem den_ofInt (n : Int) : (ofInt n).den = 1 := rfl

theorem val_ofNat (n : Nat) : (ofNat n).val = (n : ℚ) := by
  simp [ofNat, val]

theorem val_ofInt (n : Int) : (ofInt n).val = (n : ℚ) := by
  simp [ofInt, val]

theorem val_zero : (0 : PyNum).val = 0 := by
  show (⟨(0 : Int), 1⟩ : PyNum).val = 0
  simp [val]

theorem val_one : (1 : PyNum).val = 1 := by
  show (⟨(1 : Int), 1⟩ : PyNum).val = 1
  simp [val]

theorem le_iff {a b : PyNum} (ha : 0 < a.den) (hb : 0 < b.den) :
    le a b = true ↔ a.val ≤ b.val := by
  have ha' : (0 : ℚ) < (a.den : ℚ) := by exact_mod_cast ha
  have hb' : (0 : ℚ) < (b.den : ℚ) := by exact_mod_cast hb
  unfold le val
  rw [decide_eq_true_eq, div_le_div_iff ha' hb']
  constructor <;> intro h <;> exact_mod_cast h

theorem lt_iff {a b : PyNum} (ha : 0 < a.den) (hb : 0 < b.den) :
    lt a b = true ↔ a.val < b.val := by
  have ha' : (0 : ℚ) < (a.den : ℚ) := by exact_mod_cast ha
  have hb' : (0 : ℚ) < (b.den : ℚ) := by exact_mod_cast hb
  unfold lt val
  rw [decide_eq_true_eq, div_lt_div_iff ha' hb']
  constructor <;> intro h <;> exact_mod_cast h

theorem eqb_iff {a b : PyNum} (ha : 0 < a.den) (hb : 0 < b.den) :
    eqb a b = true ↔ a.val = b.val := by
  have ha' : (a.den : ℚ) ≠ 0 := by positivity
  have hb' : (b.den : ℚ) ≠ 0 := by positivity
  unfold eqb val
  rw [decide_eq_true_eq, div_eq_div_iff ha' hb']
  constructor <;> intro h <;> exact_mod_cast h

theorem den_add (a b : PyNum) : (a + b).den = a.den * b.den := rfl

theorem den_sub (a b : PyNum) : (a - b).den = a.den * b.den := rfl

theorem den_mul (a b : PyNum) : (a * b).den = a.den * b.den := rfl

theorem val_add (a b : PyNum) (ha : a.den ≠ 0) (hb : b.den ≠ 0) :
    (a + b).val = a.val + b.val := by
  have ha' : (a.den : ℚ) ≠ 0 := Int.cast_ne_zero.mpr ha
  have hb' : (b.den : ℚ) ≠ 0 := Int.cast_ne_zero.mpr hb
  show (PyNum.add a b).val = _
  unfold PyNum.add val
  push_cast
  field_simp

theorem val_sub (a b : PyNum) (ha : a.den ≠ 0) (hb : b.den ≠ 0) :
    (a - b).val = a.val - b.val := by
  have ha' : (a.den : ℚ) ≠ 0 := Int.cast_ne_zero.mpr ha
  have hb' : (b.den : ℚ) ≠ 0 := Int.cast_ne_zero.mpr hb
  show (PyNum.sub a b).val = _
  unfold PyNum.sub val
  push_cast
  field_simp
  ring

theorem val_def (a : PyNum) : a.val = (a.num : ℚ) / (a.den : ℚ) := rfl

theorem val_mul (a b : PyNum) : (a * b).val = a.val * b.val := by
  show (PyNum.mul a b).val = _
  unfold PyNum.mul val
  push_cast
  ring

theorem val_div (a b : PyNum) (ha : a.den ≠ 0) (hbd : b.den ≠ 0) (hb : b.num ≠ 0) :
    (a / b).val = a.val / b.val := by
  have ha' : ((a.den : ℚ)) ≠ 0 := Int.cast_ne_zero.mpr ha
  have hbd' : ((b.den : ℚ)) ≠ 0 := Int.cast_ne_zero.mpr hbd
  have hb' : ((b.num : ℚ)) ≠ 0 := Int.cast_ne_zero.mpr hb
  show (PyNum.div a b).val = _
  unfold PyNum.div val
  by_cases h : (0 : Int) ≤ b.num
  · rw [if_pos h]
    push_cast
    field_simp
  · rw [if_neg h]
    push_cast
    rw [neg_div_neg_eq]
    field_simp

theorem den_div_pos {a b : PyNum} (ha : 0 < a.den) (hb : b.num ≠ 0) :
    0 < (a / b).den := by
  show 0 < (PyNum.div a b).den
  unfold PyNum.div
  by_cases h : (0 : Int) ≤ b.num
  · rw [if_pos h]
    exact mul_pos ha (lt_of_le_of_ne h (Ne.symm hb))
  · rw [if_neg h]
    have h2 : 0 < a.den * (-b.num) := mul_pos ha (by omega)
    rw [mul_neg] at h2
    exact h2

theorem floor_val (a : PyNum) (h : 0 < a.den) : a.floor = ⌊a.val⌋ := by
  unfold floor val
  rw [Int.fdiv_eq_ediv _ (le_of_lt h)]
  have hd : ((a.den.toNat : ℕ) : ℤ) = a.den := Int.toNat_of_nonneg (le_of_lt h)
  calc a.num / a.den = a.num / ((a.den.toNat : ℕ) : ℤ) := by rw [hd]
    _ = ⌊((a.num : ℚ) / ((a.den.toNat : ℕ) : ℚ))⌋ := (Rat.floor_intCast_div_natCast _ _).symm
    _ = ⌊(a.num : ℚ) / (a.den : ℚ)⌋ := by
        congr 2
        exact_mod_cast hd

theorem num_nonneg_of_val {a : PyNum} (h : 0 < a.den) (h0 : 0 ≤ a.val) : 0 ≤ a.num := by
  by_contra hneg
  push_neg at hneg
  have hd : (0 : ℚ) < (a.den : ℚ) := by exact_mod_cast h
  have hn : ((a.num : ℚ)) < 0 := by exact_mod_cast hneg
  have hv : a.val < 0 := by
    rw [val_def]
    exact div_neg_of_neg_of_pos hn hd
  linarith

theorem trunc_val_nonneg (a : PyNum) (h : 0 < a.den) (h0 : 0 ≤ a.val) :
    a.trunc = ⌊a.val⌋ := by
  have hnum : 0 ≤ a.num := num_nonneg_of_val h h0
  unfold trunc
  rw [Int.tdiv_eq_ediv hnum (le_of_lt h), ← Int.fdiv_eq_ediv _ (le_of_lt h)]
  exact floor_val a h

theorem val_pymax (a b : PyNum) (ha : 0 < a.den) (hb : 0 < b.den) :
    (pymax a b).val = max a.val b.val := by
  unfold pymax
  by_cases h : le b a = true
  · rw [if_pos h, max_eq_left ((le_iff hb ha).mp h)]
  · rw [if_neg h]
    have : ¬ b.val ≤ a.val := fun hc => h ((le_iff hb ha).mpr hc)
    rw [max_eq_right (le_of_not_le this)]

theorem val_pymin (a b : PyNum) (ha : 0 < a.den) (hb : 0 < b.den) :
    (pymin a b).val = min a.val b.val := by
  unfold pymin
  by_cases h : le a b = true
  · rw [if_pos h, min_eq_left ((le_iff ha hb).mp h)]
  · rw [if_neg h]
    have : ¬ a.val ≤ b.val := fun hc => h ((le_iff ha hb).mpr hc)
    rw [min_eq_right (le_of_not_le this)]

theorem den_pymax_pos {a b : PyNum} (ha : 0 < a.den) (hb : 0 < b.den) :
    0 < (pymax a b).den := by
  unfold pymax
  split <;> assumption

theorem den_pymin_pos {a b : PyNum} (ha : 0 < a.den) (hb : 0 < b.den) :
    0 < (pymin a b).den := by
  unfold pymin
  split <;> assumption

end PyNum

set_option maxRecDepth 1000000

/-! ## Derived facts about `Attraction.capacity` -/

theorem capacity_den (a : Attraction) : (Attraction.capacity a).den = 60 := rfl

theorem capacity_num (a : Attraction) :
    (Attraction.capacity a).num = (a.hourly_throughput : Int) * ((a.run_time : Int) * 1) := rfl

theorem capacity_val (a : Attraction) :
    (Attraction.capacity a).val = (a.hourly_throughput : ℚ) * (a.run_time : ℚ) / 60 := by
  rw [PyNum.val_def, capacity_den, capacity_num]
  push_cast
  ring

theorem capacity_val_nonneg (a : Attraction) : 0 ≤ (Attraction.capacity a).val := by
  rw [capacity_val]
  positivity

/-! ## C1 -/

/-- C1: the claim says `make_state_change_decision` forces action `leaving`
(location `gate`) for every idling agent once the park has closed, regardless
of the leave-decision draw.  The code contradicts its own comment ("always
leave park if the park is closed"): the park-closed assignment at
`agent.py:150-152` is unconditionally overwritten at line 155, so with a
draw that says "stay" the agent goes on to an attraction/activity decision.
Here, with `park_closed = true`, the decision comes out `traveling` to the
activity, not `leaving`. -/
theorem c1_park_closed_branch_is_dead :
    Agent.make_state_change_decision oStay 10 1 agC1 [] [("act", actObjA)] 70 true 0
        = .ok (("traveling", some "act"), 2)
      ∧ ("traveling" : String) ≠ "leaving" := by
  exact ⟨by decide, by decide⟩

/-! ## C5 -/

theorem stepLoad_exp_queue_passes (a : Attraction) :
    (Attraction.stepLoad a).1.exp_queue_passes = a.exp_queue_passes := by
  unfold Attraction.stepLoad
  split <;> rfl

/-- C5: for every attraction with the expedited queue enabled and every time
at or after the park-closing minute, `Attraction.step(time, park_close)`
leaves the issuable pass budget `exp_queue_passes` at exactly 0. -/
theorem c5_pass_budget_zero_after_close (a : Attraction) (time park_close : Nat)
    (hexp : a.expedited_queue = true) (h : park_close ≤ time) :
    (a.step time (some park_close)).map (fun r => r.1.exp_queue_passes) = .ok 0 := by
  have hlt : ¬ time < park_close := Nat.not_lt.mpr h
  unfold Attraction.step Attraction.stepBudget
  rw [hexp]
  simp only [if_true, hlt, if_false, Except.map]
  rw [stepLoad_exp_queue_passes]

/-- Witness for C5 at a concrete closed-park step. -/
theorem c5_witness :
    attrC5.expedited_queue = true ∧ 60 ≤ 75 ∧
      (attrC5.step 75 (some 60)).map (fun r => r.1.exp_queue_passes) = .ok 0 :=
  ⟨rfl, by decide, c5_pass_budget_zero_after_close attrC5 75 60 rfl (by decide)⟩

/-! ## C7 -/

/-- C7: for an attraction without an expedited queue (and a non-zero
capacity, else Python raises ZeroDivisionError), `get_wait_time()` returns
`(standby_queue_length // capacity) * run_time + run_time_remaining`. -/
theorem c7_wait_time_no_expedited_formula (fuel : Nat) (a : Attraction)
    (hexp : a.expedited_queue = false) (hcap : a.capacity.eqb 0 = false) :
    ∃ w, a.get_wait_time fuel = .ok w ∧
      w.val = (⌊(a.queue.length : ℚ) / (Attraction.capacity a).val⌋ : ℚ) * (a.run_time : ℚ)
        + (a.run_time_remaining : ℚ) := by
  have hnum : (Attraction.capacity a).num ≠ 0 := by
    intro h0
    have ht : a.capacity.eqb 0 = true := by
      unfold PyNum.eqb
      rw [decide_eq_true_eq, h0]
      show (0 : Int) * (1 : Int) = 0 * (Attraction.capacity a).den
      ring
    rw [ht] at hcap
    cases hcap
  have hdenq : (0 : Int) < (PyNum.ofNat a.queue.length / Attraction.capacity a).den :=
    PyNum.den_div_pos (by rw [PyNum.den_ofNat]; omega) hnum
  unfold Attraction.get_wait_time
  rw [hexp]
  simp only [Bool.false_eq_true, if_false, hcap]
  refine ⟨_, rfl, ?_⟩
  rw [PyNum.val_add _ _ (by rw [PyNum.den_mul, PyNum.den_ofInt, PyNum.den_ofNat]; omega)
        (by rw [PyNum.den_ofInt]; omega),
      PyNum.val_mul, PyNum.val_ofInt, PyNum.val_ofNat, PyNum.val_ofInt]
  unfold pyFloorDiv
  rw [PyNum.floor_val _ hdenq,
      PyNum.val_div _ _ (by rw [PyNum.den_ofNat]; omega) (by rw [capacity_den]; omega) hnum,
      PyNum.val_ofNat]

/-- Witness for C7, the specification's steady-state scenario: capacity 10,
25 queued agents, 7 minutes remaining. -/
theorem c7_witness :
    attrC7.expedited_queue = false ∧ attrC7.capacity.eqb 0 = false ∧
      (∃ w, attrC7.get_wait_time 0 = .ok w ∧
        w.val = (⌊(attrC7.queue.length : ℚ) / (Attraction.capacity attrC7).val⌋ : ℚ)
          * (attrC7.run_time : ℚ) + (attrC7.run_time_remaining : ℚ)) :=
  ⟨rfl, by decide, c7_wait_time_no_expedited_formula 0 attrC7 rfl (by decide)⟩

/-! ## C8 -/

/-- C8: for every attraction with `expedited_queue = false`, in every state,
`get_exp_wait_time()` returns 0. -/
theorem c8_exp_wait_zero_without_expedited_queue (fuel : Nat) (a : Attraction)
    (h : a.expedited_queue = false) :
    a.get_exp_wait_time fuel = .ok 0 := by
  unfold Attraction.get_exp_wait_time
  rw [h]
  simp

/-- Witness for C8 on the concrete non-expedited attraction. -/
theorem c8_witness :
    attrC7.expedited_queue = false ∧ attrC7.get_exp_wait_time 5 = .ok 0 :=
  ⟨rfl, c8_exp_wait_zero_without_expedited_queue 5 attrC7 rfl⟩

/-! ## C6 -/

theorem foldl_pymin_den_pos (l : List PyNum) (acc : PyNum) (hacc : 0 < acc.den)
    (h : ∀ q ∈ l, 0 < q.den) : 0 < (l.foldl PyNum.pymin acc).den := by
  induction l generalizing acc with
  | nil => exact hacc
  | cons x xs ih =>
    simp only [List.foldl_cons]
    exact ih _ (PyNum.den_pymin_pos hacc (h x (by simp))) (fun q hq => h q (by simp [hq]))

theorem foldl_pymin_le_acc (l : List PyNum) (acc : PyNum) (hacc : 0 < acc.den)
    (h : ∀ q ∈ l, 0 < q.den) : (l.foldl PyNum.pymin acc).val ≤ acc.val := by
  induction l generalizing acc with
  | nil => exact le_refl _
  | cons x xs ih =>
    simp only [List.foldl_cons]
    have hx : 0 < x.den := h x (by simp)
    calc (xs.foldl PyNum.pymin (PyNum.pymin acc x)).val
        ≤ (PyNum.pymin acc x).val :=
          ih _ (PyNum.den_pymin_pos hacc hx) (fun q hq => h q (by simp [hq]))
      _ ≤ acc.val := by rw [PyNum.val_pymin _ _ hacc hx]; exact min_le_left _ _

theorem foldl_pymin_le_mem (l : List PyNum) (acc : PyNum) (hacc : 0 < acc.den)
    (h : ∀ q ∈ l, 0 < q.den) (p : PyNum) (hp : p ∈ l) :
    (l.foldl PyNum.pymin acc).val ≤ p.val := by
  induction l generalizing acc with
  | nil => cases hp
  | cons x xs ih =>
    simp only [List.foldl_cons]
    have hx : 0 < x.den := h x (by simp)
    rcases List.mem_cons.mp hp with rfl | hp'
    · calc (xs.foldl PyNum.pymin (PyNum.pymin acc p)).val
          ≤ (PyNum.pymin acc p).val :=
            foldl_pymin_le_acc _ _ (PyNum.den_pymin_pos hacc hx) (fun q hq => h q (by simp [hq]))
        _ ≤ p.val := by rw [PyNum.val_pymin _ _ hacc hx]; exact min_le_right _ _
    · exact ih _ (PyNum.den_pymin_pos hacc hx) (fun q hq => h q (by simp [hq])) hp'

theorem pyListMin_den_pos (l : List PyNum) (h : ∀ q ∈ l, 0 < q.den) (hne : l ≠ []) :
    0 < (pyListMin l).den := by
  match l, hne with
  | x :: xs, _ =>
    unfold pyListMin
    exact foldl_pymin_den_pos xs x (h x (by simp)) (fun q hq => h q (by simp [hq]))

theorem pyListMin_le (l : List PyNum) (h : ∀ q ∈ l, 0 < q.den) (p : PyNum) (hp : p ∈ l) :
    (pyListMin l).val ≤ p.val := by
  match l, hp with
  | x :: xs, hp =>
    unfold pyListMin
    have hx : 0 < x.den := h x (by simp)
    rcases List.mem_cons.mp hp with rfl | hp'
    · exact foldl_pymin_le_acc xs p hx (fun q hq => h q (by simp [hq]))
    · exact foldl_pymin_le_mem xs x hx (fun q hq => h q (by simp [hq])) p hp'

/-- C6: when an agent entering an activity holds at least one expedited-pass
return deadline, the recorded stay is at most the soonest positive deadline
`p`, floored at 1 minute (`max 1 p`); zero or negative deadlines cannot raise
the bound.  (`hdens` says the deadlines are well-formed fractions, which the
engine guarantees: they are wait-time estimates minus an integer number of
elapsed minutes.) -/
theorem c6_stay_capped_by_soonest_positive_deadline (o : Oracles) (e : Nat → PyNum)
    (epos : Nat) (act : Activity) (agent_id : Nat) (ert : List PyNum)
    (hne : ert ≠ []) (hdens : ∀ q ∈ ert, 0 < q.den) (p : PyNum) (hp : p ∈ ert)
    (hppos : 0 < p.val) (hmin : ∀ q ∈ ert, 0 < q.val → p.val ≤ q.val) (st : PyNum)
    (hst : ((act.add_to_activity o e epos agent_id ert).1.visitor_time_remaining).getLast?
      = some st) :
    st.val ≤ max 1 p.val := by
  unfold Activity.add_to_activity at hst
  simp only [hne, if_true, ne_eq, not_false_eq_true, List.getLast?_concat, Option.some.injEq] at hst
  subst hst
  have hmden : 0 < (pyListMin ert).den := pyListMin_den_pos ert hdens hne
  have h1den : 0 < (1 : PyNum).den := by decide
  have hxden : 0 < (PyNum.pymax 1 (pyListMin ert)).den := PyNum.den_pymax_pos h1den hmden
  have hbden : 0 < (PyNum.ofInt (pyInt (PyNum.pymax
      (if act.random_seed ≠ 0 then
        (o.npNormal (act.random_seed + agent_id) act.mean_time (act.mean_time / (2 : PyNum)), epos)
      else (e epos, epos + 1)).1 1))).den := by
    rw [PyNum.den_ofInt]; omega
  calc (PyNum.pymin (PyNum.pymax 1 (pyListMin ert)) _).val
      ≤ (PyNum.pymax 1 (pyListMin ert)).val := by
        rw [PyNum.val_pymin _ _ hxden hbden]
        exact min_le_left _ _
    _ = max (1 : ℚ) (pyListMin ert).val := by
        rw [PyNum.val_pymax _ _ h1den hmden, PyNum.val_one]
    _ ≤ max 1 p.val :=
        max_le_max (le_refl _) (pyListMin_le ert hdens p hp)

/-- Witness for C6: deadlines `[-3, 30]` (one already negative), soonest
positive deadline 30. -/
theorem c6_witness :
    ([⟨-3, 1⟩, ⟨30, 1⟩] : List PyNum) ≠ [] ∧
      (∀ q ∈ ([⟨-3, 1⟩, ⟨30, 1⟩] : List PyNum), 0 < q.den) ∧
      (⟨30, 1⟩ : PyNum) ∈ ([⟨-3, 1⟩, ⟨30, 1⟩] : List PyNum) ∧
      0 < (⟨30, 1⟩ : PyNum).val ∧
      (∀ st, ((actObjA.add_to_activity oStay entropyOne 0 7
          [⟨-3, 1⟩, ⟨30, 1⟩]).1.visitor_time_remaining).getLast? = some st →
        st.val ≤ max 1 (⟨30, 1⟩ : PyNum).val) := by
  refine ⟨by decide, by decide, by decide, ?_, ?_⟩
  · rw [PyNum.val_def]
    norm_num
  · intro st hst
    exact c6_stay_capped_by_soonest_positive_deadline oStay entropyOne 0 actObjA 7
      [⟨-3, 1⟩, ⟨30, 1⟩] (by decide) (by decide) ⟨30, 1⟩ (by decide)
      (by rw [PyNum.val_def]; norm_num)
      (by
        intro q hq hqpos
        rcases List.mem_cons.mp hq with rfl | hq'
        · exact absurd hqpos (by rw [PyNum.val_def]; norm_num)
        · rcases List.mem_cons.mp hq' with rfl | hq''
          · exact le_refl _
          · cases hq'')
      st hst

/-! ## C2 -/

theorem stepBudget_ok_shape (a : Attraction) (time : Nat) (park_close : Option Nat)
    (r : Attraction) (h : Attraction.stepBudget a time park_close = .ok r) :
    ∃ p, r = { a with exp_queue_passes := p } := by
  unfold Attraction.stepBudget at h
  split at h
  · split at h
    · exact Except.noConfusion h
    · split at h
      · split at h
        · exact Except.noConfusion h
        · exact ⟨_, (Except.ok.inj h).symm⟩
      · exact ⟨_, (Except.ok.inj h).symm⟩
  · refine ⟨a.exp_queue_passes, ?_⟩
    rw [← Except.ok.inj h]

theorem stepLoad_result (a : Attraction) (h : a.run_time_remaining = 0) :
    (Attraction.stepLoad a).1.agents_in_attraction
      = pyTake a.exp_queue (pyInt (a.capacity * a.exp_queue_frac))
        ++ pyTake a.queue
          (if (a.exp_queue.length : Int) < pyInt (a.capacity * a.exp_queue_frac) then
            pyInt (a.capacity - PyNum.ofNat a.exp_queue.length)
          else pyInt (a.capacity - PyNum.ofInt (pyInt (a.capacity * a.exp_queue_frac)))) := by
  unfold Attraction.stepLoad
  rw [if_pos h]
  rfl

theorem stepLoad_noload (a : Attraction) (h : ¬ a.run_time_remaining = 0) :
    (Attraction.stepLoad a).1 = a := by
  unfold Attraction.stepLoad
  rw [if_neg h]

theorem stepLoad_run_time (a : Attraction) :
    (Attraction.stepLoad a).1.run_time = a.run_time := by
  unfold Attraction.stepLoad
  split <;> rfl

theorem stepLoad_hourly_throughput (a : Attraction) :
    (Attraction.stepLoad a).1.hourly_throughput = a.hourly_throughput := by
  unfold Attraction.stepLoad
  split <;> rfl

theorem stepLoad_exp_queue_frac (a : Attraction) :
    (Attraction.stepLoad a).1.exp_queue_frac = a.exp_queue_frac := by
  unfold Attraction.stepLoad
  split <;> rfl

theorem stepLoad_capacity (a : Attraction) :
    Attraction.capacity (Attraction.stepLoad a).1 = Attraction.capacity a := by
  unfold Attraction.capacity
  rw [stepLoad_run_time, stepLoad_hourly_throughput]

theorem add_to_exp_queue_ok_shape (a : Attraction) (fuelW agent_id : Nat)
    (r : Attraction × PyNum) (h : a.add_to_exp_queue fuelW agent_id = .ok r) :
    r.1 = { a with exp_queue := a.exp_queue ++ [agent_id] } := by
  unfold Attraction.add_to_exp_queue at h
  cases hg : Attraction.get_exp_wait_time fuelW { a with exp_queue := a.exp_queue ++ [agent_id] } with
  | error e =>
    simp only [hg, Except.map] at h
    exact Except.noConfusion h
  | ok w =>
    simp only [hg, Except.map, Except.ok.injEq] at h
    rw [← h]

theorem return_pass_ok_shape (a : Attraction) (agent_id : Nat) (a' : Attraction)
    (h : a.return_pass agent_id = .ok a') :
    a' = { a with exp_queue_passes := a.exp_queue_passes + 1,
                  exp_queue_passes_distributed := a.exp_queue_passes_distributed - 1,
                  exp_queue := a.exp_queue.erase agent_id } := by
  unfold Attraction.return_pass at h
  by_cases hc : a.exp_queue.contains agent_id = true
  · rw [if_pos hc] at h
    exact (Except.ok.inj h).symm
  · rw [if_neg hc] at h
    cases h

theorem store_history_ok_shape (a : Attraction) (fuelW time : Nat) (a' : Attraction)
    (h : a.store_history fuelW time = .ok a') :
    ∃ w ew,
      a' = { a with
             hist_queue_length := dictUpdate time a.queue.length a.hist_queue_length,
             hist_queue_wait_time := dictUpdate time w a.hist_queue_wait_time,
             hist_exp_queue_length := dictUpdate time a.exp_queue.length a.hist_exp_queue_length,
             hist_exp_queue_wait_time := dictUpdate time ew a.hist_exp_queue_wait_time } := by
  unfold Attraction.store_history at h
  cases hw : Attraction.get_wait_time fuelW a with
  | error e =>
    simp only [hw, Except.bind, bind] at h
    exact Except.noConfusion h
  | ok w =>
    cases hew : Attraction.get_exp_wait_time fuelW a with
    | error e =>
      simp only [hw, hew, Except.bind, bind] at h
      exact Except.noConfusion h
    | ok ew =>
      simp only [hw, hew, Except.bind, bind, Except.ok.injEq] at h
      exact ⟨w, ew, h.symm⟩

/-- The central capacity computation: after a completed run cycle, the loaded
occupants number at most `⌊capacity⌋`. -/
theorem stepLoad_occupancy (a : Attraction)
    (hden : 0 < a.exp_queue_frac.den) (h0 : 0 ≤ a.exp_queue_frac.val)
    (h1 : a.exp_queue_frac.val ≤ 1)
    (hocc : (a.agents_in_attraction.length : ℚ) ≤ (Attraction.capacity a).val) :
    (((Attraction.stepLoad a).1.agents_in_attraction.length : ℚ)
      ≤ (Attraction.capacity (Attraction.stepLoad a).1).val) := by
  rw [stepLoad_capacity]
  by_cases hrem : a.run_time_remaining = 0
  · rw [stepLoad_result a hrem]
    set cap : ℚ := (Attraction.capacity a).val with hcap
    have hcapnn : 0 ≤ cap := capacity_val_nonneg a
    -- the expedited seat allotment
    have hprodden : 0 < (a.capacity * a.exp_queue_frac).den := by
      rw [PyNum.den_mul, capacity_den]
      positivity
    have hprodval : (a.capacity * a.exp_queue_frac).val = cap * a.exp_queue_frac.val := by
      rw [PyNum.val_mul, hcap]
    have hprodnn : 0 ≤ (a.capacity * a.exp_queue_frac).val := by
      rw [hprodval]; positivity
    have hme : pyInt (a.capacity * a.exp_queue_frac) = ⌊cap * a.exp_queue_frac.val⌋ := by
      unfold pyInt
      rw [PyNum.trunc_val_nonneg _ hprodden hprodnn, hprodval]
    have hmenn : 0 ≤ pyInt (a.capacity * a.exp_queue_frac) := by
      rw [hme]
      exact Int.floor_nonneg.mpr (by positivity)
    have hmele : pyInt (a.capacity * a.exp_queue_frac) ≤ ⌊cap⌋ := by
      rw [hme]
      exact Int.floor_le_floor (mul_le_of_le_one_right hcapnn h1)
    have hmelecap : ((pyInt (a.capacity * a.exp_queue_frac)) : ℚ) ≤ cap := by
      rw [hme]
      exact le_trans (Int.floor_le _) (mul_le_of_le_one_right hcapnn h1)
    set me : Int := pyInt (a.capacity * a.exp_queue_frac) with hmedef
    rw [List.length_append]
    by_cases hcase : (a.exp_queue.length : Int) < me
    · -- expedited queue shorter than its allotment
      have hEle : ((a.exp_queue.length : ℤ) : ℚ) ≤ cap := by
        calc ((a.exp_queue.length : ℤ) : ℚ) ≤ (me : ℚ) := by exact_mod_cast le_of_lt hcase
          _ ≤ cap := hmelecap
      have hsubden : 0 < (a.capacity - PyNum.ofNat a.exp_queue.length).den := by
        rw [PyNum.den_sub, capacity_den, PyNum.den_ofNat]
        omega
      have hsubval : (a.capacity - PyNum.ofNat a.exp_queue.length).val
          = cap - (a.exp_queue.length : ℚ) := by
        rw [PyNum.val_sub _ _ (by rw [capacity_den]; omega) (by rw [PyNum.den_ofNat]; omega),
          PyNum.val_ofNat, hcap]
      have hsubnn : 0 ≤ (a.capacity - PyNum.ofNat a.exp_queue.length).val := by
        rw [hsubval]
        have : ((a.exp_queue.length : ℤ) : ℚ) = (a.exp_queue.length : ℚ) := by push_cast; rfl
        linarith [hEle, this.symm.le]
      have hmq : pyInt (a.capacity - PyNum.ofNat a.exp_queue.length)
          = ⌊cap⌋ - (a.exp_queue.length : ℤ) := by
        unfold pyInt
        rw [PyNum.trunc_val_nonneg _ hsubden hsubnn, hsubval, Int.floor_sub_nat]
      rw [if_pos hcase]
      -- lengths
      have hlen1 : (pyTake a.exp_queue me).length = a.exp_queue.length := by
        unfold pyTake
        rw [if_pos hmenn, List.length_take]
        omega
      have hlen2 : (pyTake a.queue (pyInt (a.capacity - PyNum.ofNat a.exp_queue.length))).length
          ≤ (⌊cap⌋ - (a.exp_queue.length : ℤ)).toNat := by
        unfold pyTake
        rw [hmq, if_pos (by omega), List.length_take]
        omega
      have hint : ((pyTake a.exp_queue me).length
          + (pyTake a.queue (pyInt (a.capacity - PyNum.ofNat a.exp_queue.length))).length : ℤ)
          ≤ ⌊cap⌋ := by
        rw [hlen1]
        omega
      calc (((pyTake a.exp_queue me).length
            + (pyTake a.queue (pyInt (a.capacity - PyNum.ofNat a.exp_queue.length))).length : ℕ) : ℚ)
          ≤ ((⌊cap⌋ : ℤ) : ℚ) := by exact_mod_cast hint
        _ ≤ cap := Int.floor_le _
    · -- expedited queue at least as long as its allotment
      have hsubden : 0 < (a.capacity - PyNum.ofInt me).den := by
        rw [PyNum.den_sub, capacity_den, PyNum.den_ofInt]
        omega
      have hsubval : (a.capacity - PyNum.ofInt me).val = cap - (me : ℚ) := by
        rw [PyNum.val_sub _ _ (by rw [capacity_den]; omega) (by rw [PyNum.den_ofInt]; omega),
          PyNum.val_ofInt, hcap]
      have hsubnn : 0 ≤ (a.capacity - PyNum.ofInt me).val := by
        rw [hsubval]
        linarith [hmelecap]
      have hmq : pyInt (a.capacity - PyNum.ofInt me) = ⌊cap⌋ - me := by
        unfold pyInt
        rw [PyNum.trunc_val_nonneg _ hsubden hsubnn, hsubval, Int.floor_sub_int]
      rw [if_neg hcase]
      have hlen1 : ((pyTake a.exp_queue me).length : ℤ) ≤ me := by
        unfold pyTake
        rw [if_pos hmenn, List.length_take]
        omega
      have hlen2 : ((pyTake a.queue (pyInt (a.capacity - PyNum.ofInt me))).length : ℤ)
          ≤ ⌊cap⌋ - me := by
        unfold pyTake
        rw [hmq, if_pos (by omega), List.length_take]
        have : (⌊cap⌋ - me).toNat = ⌊cap⌋ - me ∨ ⌊cap⌋ - me ≤ 0 := by omega
        omega
      have hint : (((pyTake a.exp_queue me).length
          + (pyTake a.queue (pyInt (a.capacity - PyNum.ofInt me))).length : ℕ) : ℤ) ≤ ⌊cap⌋ := by
        push_cast
        omega
      calc (((pyTake a.exp_queue me).length
            + (pyTake a.queue (pyInt (a.capacity - PyNum.ofInt me))).length : ℕ) : ℚ)
          ≤ ((⌊cap⌋ : ℤ) : ℚ) := by exact_mod_cast hint
        _ ≤ cap := Int.floor_le _
  · rw [stepLoad_noload a hrem]
    exact hocc

/-- Occupancy invariant over all reachable `Attraction` states, together with
the well-formedness of the seat ratio it relies on. -/
theorem reachable_occupancy (a : Attraction) (h : a.Reachable) :
    ((a.agents_in_attraction.length : ℚ) ≤ (Attraction.capacity a).val)
      ∧ 0 < a.exp_queue_frac.den ∧ 0 ≤ a.exp_queue_frac.val ∧ a.exp_queue_frac.val ≤ 1 := by
  induction h with
  | init c a hden h0 h1 hinit =>
    unfold Attraction.init at hinit
    split at hinit
    · cases hinit
    · cases hinit
      refine ⟨by simpa using capacity_val_nonneg _, hden, ?_, ?_⟩
      · have := (PyNum.le_iff (a := 0) (b := c.exp_queue_frac) (by decide) hden).mp h0
        rwa [PyNum.val_zero] at this
      · have := (PyNum.le_iff (a := c.exp_queue_frac) (b := 1) hden (by decide)).mp h1
        rwa [PyNum.val_one] at this
  | step a time park_close r hr hstep ih =>
    obtain ⟨hocc, hden, h0, h1⟩ := ih
    unfold Attraction.step at hstep
    cases hb : Attraction.stepBudget a time park_close with
    | error e => rw [hb] at hstep; cases hstep
    | ok b =>
      rw [hb] at hstep
      simp only [Except.map, Except.ok.injEq] at hstep
      obtain ⟨p, rfl⟩ := stepBudget_ok_shape a time park_close b hb
      rw [← hstep]
      have hfrac : (Attraction.stepLoad { a with exp_queue_passes := p }).1.exp_queue_frac
          = a.exp_queue_frac := stepLoad_exp_queue_frac _
      refine ⟨stepLoad_occupancy _ hden h0 h1 hocc, ?_, ?_, ?_⟩
      · rw [hfrac]; exact hden
      · rw [hfrac]; exact h0
      · rw [hfrac]; exact h1
  | addQueue a agent_id hr ih => exact ih
  | addExpQueue a fuelW agent_id r hr hok ih =>
    rw [add_to_exp_queue_ok_shape a fuelW agent_id r hok]
    exact ih
  | removePass a hr ih => exact ih
  | returnPass a agent_id a' hr hok ih =>
    rw [return_pass_ok_shape a agent_id a' hok]
    exact ih
  | passTime a hr ih => exact ih
  | storeHistory a fuelW time a' hr hok ih =>
    obtain ⟨w, ew, rfl⟩ := store_history_ok_shape a fuelW time a' hok
    exact ih

/-- C2: for every reachable attraction state, (i) after any `step` the
occupant count never exceeds the capacity, and (ii) the number of
expedited-queue agents moved into the occupants by that step's load (the
front slice of the expedited queue) never exceeds
`floor(capacity × expedited_queue_ratio)`. -/
theorem c2_occupancy_within_capacity (a : Attraction) (h : a.Reachable)
    (time : Nat) (park_close : Option Nat) (r : Attraction × List Nat × List Nat)
    (hstep : a.step time park_close = .ok r) :
    ((r.1.agents_in_attraction.length : ℚ) ≤ (Attraction.capacity r.1).val)
      ∧ ((pyTake a.exp_queue (pyInt (a.capacity * a.exp_queue_frac))).length : ℤ)
        ≤ ⌊(Attraction.capacity a).val * a.exp_queue_frac.val⌋ := by
  obtain ⟨hocc, hden, h0, h1⟩ := reachable_occupancy a h
  constructor
  · exact (reachable_occupancy r.1 (.step a time park_close r h hstep)).1
  · have hprodden : 0 < (a.capacity * a.exp_queue_frac).den := by
      rw [PyNum.den_mul, capacity_den]
      positivity
    have hprodval : (a.capacity * a.exp_queue_frac).val
        = (Attraction.capacity a).val * a.exp_queue_frac.val := PyNum.val_mul _ _
    have hprodnn : 0 ≤ (a.capacity * a.exp_queue_frac).val := by
      rw [hprodval]
      exact mul_nonneg (capacity_val_nonneg a) h0
    have hme : pyInt (a.capacity * a.exp_queue_frac)
        = ⌊(Attraction.capacity a).val * a.exp_queue_frac.val⌋ := by
      unfold pyInt
      rw [PyNum.trunc_val_nonneg _ hprodden hprodnn, hprodval]
    have hmenn : 0 ≤ pyInt (a.capacity * a.exp_queue_frac) := by
      rw [hme]
      exact Int.floor_nonneg.mpr (by rw [← hprodval]; exact hprodnn)
    rw [← hme]
    unfold pyTake
    rw [if_pos hmenn, List.length_take]
    omega

/-- Witness for C2: a freshly initialized expedited attraction stepped once. -/
theorem c2_witness :
    Attraction.init attrCharsC2 = .ok attrC2
      ∧ attrC2.step 0 (some 600) = .ok rC2
      ∧ (((rC2.1.agents_in_attraction.length : ℚ) ≤ (Attraction.capacity rC2.1).val)
        ∧ ((pyTake attrC2.exp_queue (pyInt (attrC2.capacity * attrC2.exp_queue_frac))).length : ℤ)
          ≤ ⌊(Attraction.capacity attrC2).val * attrC2.exp_queue_frac.val⌋) :=
  ⟨by decide, by decide,
    c2_occupancy_within_capacity attrC2
      (.init attrCharsC2 attrC2 (by decide) (by decide) (by decide) (by decide))
      0 (some 600) rC2 (by decide)⟩

/-! ## C9 -/

theorem pickWeighted_mem (rng : PyNum) (dist : List (String × PyNum)) (d : String)
    (h : pickWeighted rng dist = some d) : d ∈ dist.map Prod.fst := by
  unfold pickWeighted at h
  have H : ∀ (l : List (String × PyNum)) (acc : PyNum × PyNum × Option String),
      ((l.foldl
        (fun (acc : PyNum × PyNum × Option String) kw =>
          let ceiling := acc.2.1 + kw.2
          let res := if PyNum.lt acc.1 rng && PyNum.le rng ceiling then some kw.1 else acc.2.2
          (acc.1 + kw.2, ceiling, res)) acc).2.2 = some d) →
      acc.2.2 = some d ∨ d ∈ l.map Prod.fst := by
    intro l
    induction l with
    | nil =>
      intro acc h'
      exact Or.inl h'
    | cons kw ls ih =>
      intro acc h'
      rw [List.foldl_cons] at h'
      rcases ih _ h' with h'' | h''
      · dsimp only [] at h''
        split at h''
        · right
          rw [List.map_cons]
          cases h''
          exact List.mem_cons_self _ _
        · exact Or.inl h''
      · right
        rw [List.map_cons]
        exact List.mem_cons_of_mem _ h''
  rcases H dist (0, 0, none) h with h' | h'
  · exact Option.noConfusion h'
  · exact h'

theorem selLoop_some_sat (o : Oracles) (ag : Agent)
    (attractions_dict : List (String × Attraction)) (waits : List (String × PyNum))
    (P : String → Prop) :
    ∀ (fuel : Nat) (valid : List String) (desired? : Option String)
      (pst : Nat) (act loc : String) (pst' : Nat),
      (∀ x ∈ valid, P x) → (∀ dd, desired? = some dd → P dd) →
      selectAttractionLoop o ag attractions_dict waits fuel valid desired? pst
        = .ok (some (act, loc), pst') → P loc := by
  intro fuel
  induction fuel with
  | zero =>
    intro valid desired? pst act loc pst' hval hdes h
    unfold selectAttractionLoop at h
    split at h
    · simp only [Except.ok.injEq, Prod.mk.injEq] at h
      exact Option.noConfusion h.1
    · exact Except.noConfusion h
  | succ fuel ih =>
    intro valid desired? pst act loc pst' hval hdes h
    unfold selectAttractionLoop at h
    split at h
    · simp only [Except.ok.injEq, Prod.mk.injEq] at h
      exact Option.noConfusion h.1
    · simp only [] at h
      -- the updated `desired_attraction` variable
      split at h
      · -- the variable is still unbound: NameError
        exact Except.noConfusion h
      · rename_i desired heq
        -- P holds of the (possibly stale) desired attraction
        have hPdes : P desired := by
          cases hpick : pickWeighted
              (o.pyUniform pst 0 (sumVals (attractions_dict.filterMap
                (fun p => if valid.contains p.1 then some (p.1, PyNum.ofInt p.2.popularity)
                  else none))))
              (attractions_dict.filterMap
                (fun p => if valid.contains p.1 then some (p.1, PyNum.ofInt p.2.popularity)
                  else none)) with
          | some d =>
            rw [hpick] at heq
            cases heq
            have hd := pickWeighted_mem _ _ _ hpick
            rcases List.mem_map.mp hd with ⟨⟨d', w⟩, hdw, hfst⟩
            cases hfst
            rcases List.mem_filterMap.mp hdw with ⟨p, _hp, hpf⟩
            by_cases hc : valid.contains p.1 = true
            · rw [if_pos hc] at hpf
              have hpd : p.1 = d' := congrArg Prod.fst (Option.some.inj hpf)
              rw [← hpd]
              exact hval p.1 (List.mem_of_elem_eq_true hc)
            · rw [if_neg hc] at hpf
              exact Option.noConfusion hpf
          | none =>
            rw [hpick] at heq
            exact hdes desired heq
        cases hw : waits.lookup desired with
        | none =>
          rw [hw] at h
          exact Except.noConfusion h
        | some w =>
          rw [hw] at h
          cases hattr : attractions_dict.lookup desired with
          | none =>
            rw [hattr] at h
            exact Except.noConfusion h
          | some attr =>
            rw [hattr] at h
            split at h
            · split at h
              · have h2 := Option.some.inj (congrArg Prod.fst (Except.ok.inj h))
                injection h2 with hac hlc
                exact hlc ▸ hPdes
              · split at h
                · split at h
                  · exact ih (valid.erase desired) (some desired) (pst + 1) act loc pst'
                      (fun x hx => hval x (List.mem_of_mem_erase hx))
                      (fun dd hdd => by cases hdd; exact hPdes) h
                  · exact Except.noConfusion h
                · split at h
                  · split at h
                    · exact ih (valid.erase desired) (some desired) (pst + 1) act loc pst'
                        (fun x hx => hval x (List.mem_of_mem_erase hx))
                        (fun dd hdd => by cases hdd; exact hPdes) h
                    · exact Except.noConfusion h
                  · have h2 := Option.some.inj (congrArg Prod.fst (Except.ok.inj h))
                    injection h2 with hac hlc
                    exact hlc ▸ hPdes
            · rename_i hexcl
              exact (hexcl w attr rfl rfl).elim

theorem daoa_valid_not_held (o : Oracles) (ag : Agent)
    (attractions_dict : List (String × Attraction)) (pst : Nat) (x : String)
    (hx : x ∈ (ag.decide_attraction_or_activity o attractions_dict pst).1.2) :
    x ∉ ag.expedited_pass := by
  have hbase : ∀ y, (y ∈ (if ag.behavior.allow_repeats then
        (attractions_dict.map (·.1)).filter (fun k => !ag.expedited_pass.contains k)
      else
        (ag.attractions_hist.filter
          (fun p => p.2 == 0 && !ag.expedited_pass.contains p.1)).map (·.1))) →
      y ∉ ag.expedited_pass := by
    intro y hy
    split at hy
    · have := (List.mem_filter.mp hy).2
      simp only [Bool.not_eq_true'] at this
      intro hmem
      have helem : List.elem y ag.expedited_pass = false := this
      rw [List.elem_eq_true_of_mem hmem] at helem
      exact Bool.noConfusion helem
    · rcases List.mem_map.mp hy with ⟨p, hp, hfst⟩
      have := (List.mem_filter.mp hp).2
      rw [Bool.and_eq_true] at this
      have h2 := this.2
      simp only [Bool.not_eq_true'] at h2
      intro hmem
      rw [← hfst] at hmem
      have helem : List.elem p.1 ag.expedited_pass = false := h2
      rw [List.elem_eq_true_of_mem hmem] at helem
      exact Bool.noConfusion helem
  have hsel : ∀ (valid : List String) (p : Nat),
      x ∈ ((if valid.isEmpty then (("activity", ([] : List String)), p)
        else (("attraction", valid), p)).1.2) → x ∈ valid := by
    intro valid p hm
    split at hm
    · exact absurd hm (List.not_mem_nil x)
    · exact hm
  unfold Agent.decide_attraction_or_activity at hx
  simp only [] at hx
  by_cases hcoin : PyNum.le (o.pyUniform pst 0 1) ag.behavior.attraction_preference = true
  · rw [if_pos hcoin] at hx
    have hv := hsel _ _ hx
    have hb : x ∈ (if ag.behavior.allow_repeats then
        (attractions_dict.map (·.1)).filter (fun k => !ag.expedited_pass.contains k)
      else
        (ag.attractions_hist.filter
          (fun p => p.2 == 0 && !ag.expedited_pass.contains p.1)).map (·.1)) := by
      split at hv
      · exact (List.mem_filter.mp hv).1
      · exact hv
    exact hbase x hb
  · rw [if_neg hcoin] at hx
    exact absurd hx (List.not_mem_nil x)

theorem decide_to_leave_some_shape (o : Oracles) (random_seed : Nat) (ag : Agent)
    (time : Nat) (p : String × String)
    (h : ag.decide_to_leave_park o random_seed time = .ok (some p)) :
    p = ("leaving", "gate") := by
  unfold Agent.decide_to_leave_park at h
  split at h
  · exact Except.noConfusion h
  · split at h
    · simp only [] at h
      split at h
      · exact (Option.some.inj (Except.ok.inj h)).symm
      · exact Option.noConfusion (Except.ok.inj h)
    · exact Option.noConfusion (Except.ok.inj h)

theorem maad_get_pass_not_held (o : Oracles) (fuelW : Nat) (ag : Agent)
    (attractions_dict : List (String × Attraction))
    (activities_dict : List (String × Activity)) (pst : Nat) (loc : String) (pst' : Nat)
    (h : ag.make_attraction_activity_decision o fuelW attractions_dict activities_dict pst
      = .ok (("get pass", some loc), pst')) :
    loc ∉ ag.expedited_pass := by
  unfold Agent.make_attraction_activity_decision at h
  simp only [bind, Except.bind, pure] at h
  split at h
  · simp only [Except.ok.injEq, Prod.mk.injEq] at h
    exact absurd h.1.1 (by decide)
  · cases hsel : ag.select_attraction_decision o fuelW attractions_dict
        (ag.decide_attraction_or_activity o attractions_dict pst).1.2
        (ag.decide_attraction_or_activity o attractions_dict pst).2 with
    | error e =>
      rw [hsel] at h
      exact Except.noConfusion h
    | ok rp =>
      rw [hsel] at h
      match rp, h with
      | (some (act0, loc0), pst0), h =>
        simp only [Except.ok.injEq, Prod.mk.injEq, Option.some.injEq] at h
        unfold Agent.select_attraction_decision at hsel
        simp only [bind, Except.bind, pure] at hsel
        cases hwt : computeWaitTimes fuelW attractions_dict with
        | error e =>
          rw [hwt] at hsel
          exact Except.noConfusion hsel
        | ok waits =>
          rw [hwt] at hsel
          have := selLoop_some_sat o ag attractions_dict waits (· ∉ ag.expedited_pass)
            (ag.decide_attraction_or_activity o attractions_dict pst).1.2.length
            (ag.decide_attraction_or_activity o attractions_dict pst).1.2 none
            (ag.decide_attraction_or_activity o attractions_dict pst).2 act0 loc0 pst0
            (fun x hx => daoa_valid_not_held o ag attractions_dict pst x hx)
            (fun dd hdd => Option.noConfusion hdd) hsel
          rw [← h.1.2]
          exact this
      | (none, pst0), h =>
        simp only [Except.ok.injEq, Prod.mk.injEq] at h
        exact absurd h.1.1 (by decide)

theorem msd_get_pass_not_held (o : Oracles) (fuelW random_seed : Nat) (ag : Agent)
    (attractions_dict : List (String × Attraction))
    (activities_dict : List (String × Activity)) (time : Nat) (park_closed : Bool)
    (pst : Nat) (loc : String) (pst' : Nat)
    (h : ag.make_state_change_decision o fuelW random_seed attractions_dict activities_dict
      time park_closed pst = .ok (("get pass", some loc), pst')) :
    loc ∉ ag.expedited_pass := by
  unfold Agent.make_state_change_decision at h
  simp only [bind, Except.bind, pure] at h
  cases hl : ag.decide_to_leave_park o random_seed time with
  | error e =>
    rw [hl] at h
    exact Except.noConfusion h
  | ok leave? =>
    rw [hl] at h
    match leave?, h with
    | some p, h =>
      have hp := decide_to_leave_some_shape o random_seed ag time p hl
      simp only [Except.ok.injEq, Prod.mk.injEq] at h
      rw [hp] at h
      exact absurd h.1.1 (by decide)
    | none, h =>
      exact maad_get_pass_not_held o fuelW ag attractions_dict activities_dict pst loc pst' h

theorem lastIdxOf_lt_length (l : List String) (x : String) (i : Nat)
    (h : lastIdxOf l x = some i) : i < l.length := by
  unfold lastIdxOf at h
  cases hg : (l.enum.filter (fun p => p.2 == x)).getLast? with
  | none => rw [hg] at h; exact Option.noConfusion h
  | some p =>
    rw [hg] at h
    simp only [Option.map_some'] at h
    cases h
    have hp : p ∈ l.enum.filter (fun q => q.2 == x) := by
      rcases List.mem_getLast?_eq_getLast hg with ⟨hne, hpe⟩
      rw [hpe]
      exact List.getLast_mem hne
    have hp' : p ∈ l.enum := (List.mem_filter.mp hp).1
    have hget := List.mem_enum_iff_get?.mp hp'
    exact (List.get?_eq_some.mp hget).1

theorem return_exp_pass_ok_shape (ag : Agent) (x : String) (ag' : Agent)
    (h : ag.return_exp_pass x = .ok ag') :
    ∃ i, lastIdxOf ag.expedited_pass x = some i
      ∧ ag' = { ag with expedited_pass := ag.expedited_pass.eraseIdx i,
                        expedited_return_time := ag.expedited_return_time.eraseIdx i } := by
  unfold Agent.return_exp_pass at h
  cases hl : lastIdxOf ag.expedited_pass x with
  | none => rw [hl] at h; exact Except.noConfusion h
  | some i =>
    rw [hl] at h
    exact ⟨i, rfl, (Except.ok.inj h).symm⟩

theorem pass_time_passes (ag : Agent) :
    ag.pass_time.expedited_pass = ag.expedited_pass
      ∧ ag.pass_time.expedited_return_time.length = ag.expedited_return_time.length := by
  unfold Agent.pass_time
  split
  · simp only []
    split
    · exact ⟨rfl, List.length_map _ _⟩
    · exact ⟨rfl, rfl⟩
  · exact ⟨rfl, rfl⟩

/-- The invariant behind C9, proved by induction over the reachable
pass-holding states. -/
theorem passReach_nodup_aligned (ps : List String) (ts : List PyNum)
    (h : PassReach ps ts) : ps.Nodup ∧ ps.length = ts.length := by
  induction h with
  | init => exact ⟨List.nodup_nil, rfl⟩
  | getPass o fuelW random_seed ag attrs acts time pcl pst pst' loc w hre hdec ih =>
    have hnot : loc ∉ ag.expedited_pass :=
      msd_get_pass_not_held o fuelW random_seed ag attrs acts time pcl pst loc pst' hdec
    constructor
    · exact ih.1.append (List.nodup_singleton loc)
        (fun x hx hx' => hnot ((List.mem_singleton.mp hx') ▸ hx))
    · rw [List.length_append, List.length_append, ih.2]
      rfl
  | returnPass ag x ag' hre hok ih =>
    obtain ⟨i, hidx, rfl⟩ := return_exp_pass_ok_shape ag x ag' hok
    have hi : i < ag.expedited_pass.length := lastIdxOf_lt_length _ _ _ hidx
    constructor
    · exact ih.1.sublist (List.eraseIdx_sublist _ _)
    · rw [List.length_eraseIdx, List.length_eraseIdx]
      rw [if_pos hi, if_pos (ih.2 ▸ hi)]
      omega
  | boarded ag name hre ih =>
    unfold Agent.agent_boarded_attraction
    split
    · cases hl : lastIdxOf ag.expedited_pass name with
      | none =>
        simp only [hl]
        exact ih
      | some i =>
        simp only [hl]
        have hi : i < ag.expedited_pass.length := lastIdxOf_lt_length _ _ _ hl
        constructor
        · exact ih.1.sublist (List.eraseIdx_sublist _ _)
        · rw [List.length_eraseIdx, List.length_eraseIdx]
          rw [if_pos hi, if_pos (ih.2 ▸ hi)]
          omega
    · exact ih
  | tick ag hre ih =>
    obtain ⟨h1, h2⟩ := pass_time_passes ag
    rw [h1, h2]
    exact ih

/-- C9: in every reachable pass-holding state, an agent's held-passes list
contains no attraction twice, and it stays index-aligned (equal length) with
the return-countdown list. -/
theorem c9_passes_nodup_and_aligned (ps : List String) (ts : List PyNum)
    (h : PassReach ps ts) : ps.Nodup ∧ ps.length = ts.length :=
  passReach_nodup_aligned ps ts h

/-- Witness for C9: the pass state after an actual "get pass" decision made
by the real decision function on a concrete park state. -/
theorem c9_witness :
    (agC9.expedited_pass ++ ["ride"]).Nodup
      ∧ (agC9.expedited_pass ++ ["ride"]).length
        = (agC9.expedited_return_time ++ [(27 : PyNum)]).length :=
  c9_passes_nodup_and_aligned _ _
    (PassReach.getPass oA 10 1 agC9 [("ride", attrC9)] [("act", actObjA)] 0 false 0 2
      "ride" 27 PassReach.init (by decide))

/-! ## C10 (amended) -/

theorem sampleSchedule_close_none (o : Oracles) (random_seed : Nat)
    (arrival_seed : List (String × PyNum)) (total_daily_agents : Nat)
    (h : ∀ p ∈ arrival_seed, p.2.eqb 0 = false) :
    (sampleSchedule o random_seed arrival_seed total_daily_agents).2 = none := by
  have H : ∀ (l : List (Nat × String × PyNum)) (acc : List (Nat × Int) × Option Nat),
      (∀ q ∈ l, (q : Nat × String × PyNum).2.2.eqb 0 = false) → acc.2 = none →
      (l.foldl (fun (acc : List (Nat × Int) × Option Nat) hp =>
        let hour := hp.1
        let arrival_pct := hp.2.2
        let park_close :=
          if arrival_pct.eqb 0 ∧ (acc.2 = none ∨ acc.2 = some 0) then some (hour * 60) else acc.2
        let expected_minute_agents : PyNum :=
          (PyNum.ofNat total_daily_agents * arrival_pct * ((1 : PyNum) / (100 : PyNum)))
            / (60 : PyNum)
        let sched := (List.range 60).foldl
          (fun sch minute =>
            dictUpdate (hour * 60 + minute)
              ((o.npPoisson (random_seed + hour) expected_minute_agents minute : Int)) sch)
          acc.1
        (sched, park_close)) acc).2 = none := by
    intro l
    induction l with
    | nil => intro acc _ hacc; exact hacc
    | cons q rest ih =>
      intro acc hl hacc
      simp only [List.foldl_cons]
      refine ih _ (fun r hr => hl r (List.mem_cons_of_mem _ hr)) ?_
      have hq := hl q (List.mem_cons_self _ _)
      simp only []
      rw [if_neg]
      · exact hacc
      · intro hc
        rw [hq] at hc
        exact Bool.noConfusion hc.1
  have h' : ∀ q ∈ arrival_seed.enum, (q : Nat × String × PyNum).2.2.eqb 0 = false :=
    fun q hq => h q.2 (List.get?_mem (List.mem_enum_iff_get?.mp hq))
  exact H arrival_seed.enum ([], none) h' rfl

theorem gas_close_none (o : Oracles) (random_seed : Nat)
    (arrival_seed : List (String × PyNum)) (total_daily_agents : Nat)
    (perfect_arrivals : Bool) (r : List (Nat × Int) × Option Nat × Nat)
    (h : ∀ p ∈ arrival_seed, p.2.eqb 0 = false)
    (hr : generate_arrival_schedule o random_seed arrival_seed total_daily_agents
      perfect_arrivals = .ok r) : r.2.1 = none := by
  unfold generate_arrival_schedule at hr
  split at hr
  · exact Except.noConfusion hr
  · split at hr
    · exact Except.noConfusion hr
    · simp only [] at hr
      split at hr
      · split at hr
        · exact Except.noConfusion hr
        · split at hr
          · exact Except.noConfusion hr
          · rw [← Except.ok.inj hr]
            exact sampleSchedule_close_none o random_seed arrival_seed total_daily_agents h
      · rw [← Except.ok.inj hr]
        exact sampleSchedule_close_none o random_seed arrival_seed total_daily_agents h

theorem arriveLoop_frame (time : Nat) :
    ∀ (ids : List Nat) (s s' : ParkState), arriveLoop time ids s = .ok s' →
      s'.park_close = s.park_close ∧ s'.activities = s.activities := by
  intro ids
  induction ids with
  | nil =>
    intro s s' h
    rw [← Except.ok.inj h]
    exact ⟨rfl, rfl⟩
  | cons i rest ih =>
    intro s s' h
    unfold arriveLoop at h
    split at h
    · exact Except.noConfusion h
    · have hr := ih _ _ h
      exact hr

/-- C10 (amended): an arrival table with no zero-percentage hour leaves
`park_close` equal to `None`; on such a state a `Park.step` tick raises
TypeError exactly when the idle-agent loop runs, i.e. when at least one
in-park agent is idling after the arrivals of that minute — the comparison
`self.park_close <= self.time` is only evaluated inside the per-idle-agent
loop, so idle-free ticks still complete (see the counterexample). -/
theorem c10_park_close_none_and_idle_typeerr :
    (∀ (o : Oracles) (random_seed : Nat) (arrival_seed : List (String × PyNum))
        (total_daily_agents : Nat) (perfect_arrivals : Bool)
        (r : List (Nat × Int) × Option Nat × Nat),
      (∀ p ∈ arrival_seed, p.2.eqb 0 = false) →
      generate_arrival_schedule o random_seed arrival_seed total_daily_agents
        perfect_arrivals = .ok r →
      r.2.1 = none)
    ∧ (∀ (o : Oracles) (e : Nat → PyNum) (fuelW : Nat) (s : ParkState) (tot : Int),
      s.park_close = none →
      s.schedule.lookup s.time = some tot →
      (arriveLoop s.time ((List.range tot.toNat).map (s.arrival_index + ·)) s).map
          (fun s₁ => !(getIdleAgentIds s₁).isEmpty) = .ok true →
      Park.step o e fuelW s = .error .typeErr) := by
  constructor
  · exact gas_close_none
  · intro o e fuelW s tot hpc hlk hidle
    unfold Park.step
    split
    · rename_i heq
      rw [hlk] at heq
      exact Option.noConfusion heq
    · rename_i ta heq
      rw [hlk] at heq
      cases Option.some.inj heq
      simp only []
      split
      · rename_i err heq2
        rw [heq2] at hidle
        simp only [Except.map] at hidle
        exact Except.noConfusion hidle
      · rename_i s₁ heq2
        rw [heq2] at hidle
        simp only [Except.map] at hidle
        have hne := Except.ok.inj hidle
        have hpc1 : s₁.park_close = none :=
          (arriveLoop_frame s.time _ s s₁ heq2).1.trans hpc
        cases hl : getIdleAgentIds s₁ with
        | nil =>
          rw [hl] at hne
          exact absurd hne (by decide)
        | cons a rest =>
          have hl₂ : getIdleAgentIds
              { s₁ with arrival_index := s₁.arrival_index + tot.toNat } = a :: rest := hl
          rw [hl₂]
          have hP : processIdleAgents o e fuelW (a :: rest)
              { s₁ with arrival_index := s₁.arrival_index + tot.toNat } = .error .typeErr := by
            unfold processIdleAgents
            rw [show ({ s₁ with arrival_index := s₁.arrival_index + tot.toNat }
              : ParkState).park_close = none from hpc1]
          rw [hP]

/-- Witness for C10 (amended): the all-nonzero table of `cfgC10b` yields
`park_close = None`, and the tick on the built state `sC10b` (which has one
idle agent) raises TypeError. -/
theorem c10_park_close_none_and_idle_typeerr_witness :
    rC10.2.1 = none ∧ Park.step oA entropyOne 10 sC10b = .error .typeErr :=
  ⟨c10_park_close_none_and_idle_typeerr.1 oA 1 cfgC10b.arrival_seed 1 true rC10
      (by decide) (by decide),
   c10_park_close_none_and_idle_typeerr.2 oA entropyOne 10 sC10b 1
      (by decide) (by decide) (by decide)⟩

/-! ## C4 (amended) -/

theorem dictUpdate_mem {κ : Type} {α : Type} [BEq κ] (k : κ) (v : α) :
    ∀ (l : List (κ × α)) (p : κ × α), p ∈ dictUpdate k v l → p = (k, v) ∨ p ∈ l := by
  intro l
  induction l with
  | nil =>
    intro p hp
    exact Or.inl (List.mem_singleton.mp hp)
  | cons q rest ih =>
    intro p hp
    unfold dictUpdate at hp
    split at hp
    · rcases List.mem_cons.mp hp with h | h
      · exact Or.inl h
      · exact Or.inr (List.mem_cons_of_mem _ h)
    · rcases List.mem_cons.mp hp with h | h
      · exact Or.inr (h ▸ List.mem_cons_self _ _)
      · rcases ih p h with h' | h'
        · exact Or.inl h'
        · exact Or.inr (List.mem_cons_of_mem _ h')

theorem dictUpdate_keys_sub (k : Nat) (v : Int) :
    ∀ (l : List (Nat × Int)) (x : Nat),
      x ∈ (dictUpdate k v l).map (·.1) → x = k ∨ x ∈ l.map (·.1) := by
  intro l x hx
  rcases List.mem_map.mp hx with ⟨p, hp, hpx⟩
  rcases dictUpdate_mem k v l p hp with h | h
  · exact Or.inl (by rw [← hpx, h])
  · exact Or.inr (hpx ▸ List.mem_map_of_mem _ h)

theorem dictUpdate_keys_nodup (k : Nat) (v : Int) :
    ∀ (l : List (Nat × Int)), (l.map (·.1)).Nodup → ((dictUpdate k v l).map (·.1)).Nodup := by
  intro l
  induction l with
  | nil => intro _; exact List.nodup_singleton k
  | cons q rest ih =>
    intro hnd
    rw [List.map_cons, List.nodup_cons] at hnd
    unfold dictUpdate
    split
    · rename_i hbeq
      rw [List.map_cons, List.nodup_cons]
      exact ⟨fun hk => hnd.1 (by rw [eq_of_beq hbeq]; exact hk), hnd.2⟩
    · rename_i hbeq
      rw [List.map_cons, List.nodup_cons]
      refine ⟨fun hk => ?_, ih hnd.2⟩
      rcases dictUpdate_keys_sub k v rest q.1 hk with h | h
      · exact hbeq (by rw [h]; exact beq_self_eq_true k)
      · exact hnd.1 h

theorem lookup_of_mem_nodup :
    ∀ (l : List (Nat × Int)) (k : Nat) (w : Int),
      (l.map (·.1)).Nodup → (k, w) ∈ l → l.lookup k = some w := by
  intro l
  induction l with
  | nil => intro k w _ h; cases h
  | cons q rest ih =>
    intro k w hnd hmem
    rw [List.map_cons, List.nodup_cons] at hnd
    rcases List.mem_cons.mp hmem with h | h
    · rw [← h]
      simp [List.lookup]
    · have hne : k ≠ q.1 := by
        intro he
        exact hnd.1 (he ▸ List.mem_map_of_mem _ h)
      have : (k == q.1) = false := by
        exact beq_eq_false_iff_ne.mpr hne
      simp only [List.lookup, this]
      exact ih k w hnd.2 h

theorem schedSum_dictUpdate (k : Nat) (v : Int) :
    ∀ (l : List (Nat × Int)) (w : Int), l.lookup k = some w →
      schedSum (dictUpdate k v l) = schedSum l + v - w := by
  intro l
  induction l with
  | nil => intro w h; exact absurd h (by simp [List.lookup])
  | cons q rest ih =>
    intro w h
    by_cases hbeq : (k == q.1) = true
    · have : q.1 == k := by rw [eq_of_beq hbeq]; exact beq_self_eq_true _
      simp only [List.lookup, hbeq] at h
      unfold dictUpdate
      rw [if_pos this]
      unfold schedSum
      simp only [List.map_cons, List.sum_cons]
      rw [Option.some.inj h]
      ring
    · have hqk : (q.1 == k) = false := by
        refine beq_eq_false_iff_ne.mpr ?_
        intro he
        exact hbeq (by rw [he]; exact beq_self_eq_true _)
      rw [Bool.not_eq_true] at hbeq
      simp only [List.lookup, hbeq] at h
      unfold dictUpdate
      rw [if_neg (by rw [hqk]; exact Bool.false_ne_true)]
      unfold schedSum at ih ⊢
      simp only [List.map_cons, List.sum_cons]
      rw [ih w h]
      ring

theorem schedSum_nonneg :
    ∀ (l : List (Nat × Int)), (∀ p ∈ l, 0 ≤ p.2) → 0 ≤ schedSum l := by
  intro l
  induction l with
  | nil => intro _; exact le_refl 0
  | cons q rest ih =>
    intro h
    unfold schedSum
    simp only [List.map_cons, List.sum_cons]
    have h1 := h q (List.mem_cons_self _ _)
    have h2 := ih (fun p hp => h p (List.mem_cons_of_mem _ hp))
    unfold schedSum at h2
    omega

theorem le_schedSum_of_mem :
    ∀ (l : List (Nat × Int)) (p : Nat × Int), (∀ q ∈ l, 0 ≤ q.2) → p ∈ l →
      p.2 ≤ schedSum l := by
  intro l
  induction l with
  | nil => intro p _ hp; cases hp
  | cons q rest ih =>
    intro p h hp
    unfold schedSum
    simp only [List.map_cons, List.sum_cons]
    rcases List.mem_cons.mp hp with h' | h'
    · have h2 := schedSum_nonneg rest (fun r hr => h r (List.mem_cons_of_mem _ hr))
      unfold schedSum at h2
      rw [h']
      omega
    · have h1 := h q (List.mem_cons_self _ _)
      have h2 := ih p (fun r hr => h r (List.mem_cons_of_mem _ hr)) h'
      unfold schedSum at h2
      omega

theorem exists_pos_of_schedSum_pos :
    ∀ (l : List (Nat × Int)), (∀ p ∈ l, 0 ≤ p.2) → 0 < schedSum l →
      ∃ p ∈ l, 0 < p.2 := by
  intro l
  induction l with
  | nil => intro _ h; exact absurd h (by simp [schedSum])
  | cons q rest ih =>
    intro hpos hsum
    by_cases hq : 0 < q.2
    · exact ⟨q, List.mem_cons_self _ _, hq⟩
    · have hq0 : q.2 = 0 := le_antisymm (not_lt.mp hq) (hpos q (List.mem_cons_self _ _))
      have : 0 < schedSum rest := by
        unfold schedSum at hsum ⊢
        simp only [List.map_cons, List.sum_cons, hq0] at hsum
        omega
      rcases ih (fun p hp => hpos p (List.mem_cons_of_mem _ hp)) this with ⟨p, hp, hp2⟩
      exact ⟨p, List.mem_cons_of_mem _ hp, hp2⟩

theorem getD_mod_mem (l : List Nat) (x : Nat) (hne : l ≠ []) :
    l.getD (x % l.length) 0 ∈ l := by
  have hlt : x % l.length < l.length := Nat.mod_lt _ (List.length_pos.mpr hne)
  rw [List.getD_eq_get?, List.get?_eq_get hlt]
  exact List.get_mem l _ hlt

theorem lookup_pos_of_mem_posKeys (sched : List (Nat × Int)) (k : Nat)
    (hnd : (sched.map (·.1)).Nodup)
    (hk : k ∈ (sched.filter (fun p => 0 < p.2)).map (·.1)) :
    ∃ w, sched.lookup k = some w ∧ 0 < w := by
  rcases List.mem_map.mp hk with ⟨p, hp, hpk⟩
  have hmem := (List.mem_filter.mp hp).1
  have hpos : 0 < p.2 := of_decide_eq_true (List.mem_filter.mp hp).2
  refine ⟨p.2, ?_, hpos⟩
  rw [← hpk]
  exact lookup_of_mem_nodup sched p.1 p.2 hnd hmem

theorem correctionLoop_succ_eq (o : Oracles) (d : Int) (n : Nat)
    (sched : List (Nat × Int)) (pst : Nat) (a : Nat) (as : List Nat)
    (hpos : (sched.filter (fun p => 0 < p.2)).map (·.1) = a :: as) (w : Int)
    (hlk : sched.lookup
      ((a :: as).getD (o.pyChoice pst (a :: as).length % (a :: as).length) 0) = some w) :
    correctionLoop o d (n + 1) sched pst
      = correctionLoop o d n
          (dictUpdate
            ((a :: as).getD (o.pyChoice pst (a :: as).length % (a :: as).length) 0)
            (w + d) sched)
          (pst + 1) := by
  conv_lhs => unfold correctionLoop
  simp only [hpos, hlk]

theorem correctionLoop_pos_empty (o : Oracles) (d : Int) (n : Nat) (hn : 0 < n)
    (sched : List (Nat × Int)) (pst : Nat)
    (h : (sched.filter (fun p => 0 < p.2)).map (·.1) = []) :
    correctionLoop o d n sched pst = .error .indexErr := by
  cases n with
  | zero => exact absurd hn (by decide)
  | succ m =>
    unfold correctionLoop
    simp only [h]

theorem corrLoop_dec (o : Oracles) :
    ∀ (n : Nat) (sched : List (Nat × Int)) (pst : Nat),
      (sched.map (·.1)).Nodup → (∀ p ∈ sched, 0 ≤ p.2) → (n : Int) ≤ schedSum sched →
      ∃ r, correctionLoop o (-1) n sched pst = .ok r
        ∧ schedSum r.1 = schedSum sched - n
        ∧ (∀ p ∈ r.1, 0 ≤ p.2)
        ∧ (r.1.map (·.1)).Nodup := by
  intro n
  induction n with
  | zero =>
    intro sched pst hnd hpos _
    exact ⟨(sched, pst), rfl, by simp, hpos, hnd⟩
  | succ n ih =>
    intro sched pst hnd hpos hle
    have hsum : 0 < schedSum sched := by
      have : (0 : Int) < ((n : Int) + 1) := by positivity
      calc (0 : Int) < ((n : Int) + 1) := this
        _ = ((n + 1 : Nat) : Int) := by push_cast; ring
        _ ≤ schedSum sched := hle
    obtain ⟨p, hp, hppos⟩ := exists_pos_of_schedSum_pos sched hpos hsum
    cases hpos' : (sched.filter (fun p => 0 < p.2)).map (·.1) with
    | nil =>
      exfalso
      have : p.1 ∈ (sched.filter (fun p => 0 < p.2)).map (·.1) :=
        List.mem_map_of_mem _ (List.mem_filter.mpr ⟨hp, decide_eq_true hppos⟩)
      rw [hpos'] at this
      cases this
    | cons a as =>
      have hkey : (a :: as).getD (o.pyChoice pst (a :: as).length % (a :: as).length) 0
          ∈ (a :: as) := getD_mod_mem _ _ (List.cons_ne_nil a as)
      have hkey2 : (a :: as).getD (o.pyChoice pst (a :: as).length % (a :: as).length) 0
          ∈ (sched.filter (fun p => 0 < p.2)).map (·.1) := by
        rw [hpos']
        exact hkey
      obtain ⟨w, hlk, hwpos⟩ := lookup_pos_of_mem_posKeys sched _ hnd hkey2
      rw [correctionLoop_succ_eq o (-1) n sched pst a as hpos' w hlk]
      have hnd' := dictUpdate_keys_nodup
        ((a :: as).getD (o.pyChoice pst (a :: as).length % (a :: as).length) 0)
        (w + -1) sched hnd
      have hpos2 : ∀ q ∈ dictUpdate
          ((a :: as).getD (o.pyChoice pst (a :: as).length % (a :: as).length) 0)
          (w + -1) sched, 0 ≤ q.2 := by
        intro q hq
        rcases dictUpdate_mem _ _ sched q hq with h | h
        · rw [h]; omega
        · exact hpos q h
      have hsum' := schedSum_dictUpdate
        ((a :: as).getD (o.pyChoice pst (a :: as).length % (a :: as).length) 0)
        (w + -1) sched w hlk
      obtain ⟨r, hr, hs, hp', hnd''⟩ := ih _ (pst + 1) hnd' hpos2 (by rw [hsum']; push_cast at hle ⊢; omega)
      refine ⟨r, hr, ?_, hp', hnd''⟩
      rw [hs, hsum']
      push_cast
      omega

theorem corrLoop_inc (o : Oracles) :
    ∀ (n : Nat) (sched : List (Nat × Int)) (pst : Nat),
      (sched.map (·.1)).Nodup → (∀ p ∈ sched, 0 ≤ p.2) → 0 < schedSum sched →
      ∃ r, correctionLoop o 1 n sched pst = .ok r
        ∧ schedSum r.1 = schedSum sched + n
        ∧ (∀ p ∈ r.1, 0 ≤ p.2)
        ∧ (r.1.map (·.1)).Nodup := by
  intro n
  induction n with
  | zero =>
    intro sched pst hnd hpos _
    exact ⟨(sched, pst), rfl, by simp, hpos, hnd⟩
  | succ n ih =>
    intro sched pst hnd hpos hsum
    obtain ⟨p, hp, hppos⟩ := exists_pos_of_schedSum_pos sched hpos hsum
    cases hpos' : (sched.filter (fun p => 0 < p.2)).map (·.1) with
    | nil =>
      exfalso
      have : p.1 ∈ (sched.filter (fun p => 0 < p.2)).map (·.1) :=
        List.mem_map_of_mem _ (List.mem_filter.mpr ⟨hp, decide_eq_true hppos⟩)
      rw [hpos'] at this
      cases this
    | cons a as =>
      have hkey : (a :: as).getD (o.pyChoice pst (a :: as).length % (a :: as).length) 0
          ∈ (a :: as) := getD_mod_mem _ _ (List.cons_ne_nil a as)
      have hkey2 : (a :: as).getD (o.pyChoice pst (a :: as).length % (a :: as).length) 0
          ∈ (sched.filter (fun p => 0 < p.2)).map (·.1) := by
        rw [hpos']
        exact hkey
      obtain ⟨w, hlk, hwpos⟩ := lookup_pos_of_mem_posKeys sched _ hnd hkey2
      rw [correctionLoop_succ_eq o 1 n sched pst a as hpos' w hlk]
      have hnd' := dictUpdate_keys_nodup
        ((a :: as).getD (o.pyChoice pst (a :: as).length % (a :: as).length) 0)
        (w + 1) sched hnd
      have hpos2 : ∀ q ∈ dictUpdate
          ((a :: as).getD (o.pyChoice pst (a :: as).length % (a :: as).length) 0)
          (w + 1) sched, 0 ≤ q.2 := by
        intro q hq
        rcases dictUpdate_mem _ _ sched q hq with h | h
        · rw [h]; omega
        · exact hpos q h
      have hsum' := schedSum_dictUpdate
        ((a :: as).getD (o.pyChoice pst (a :: as).length % (a :: as).length) 0)
        (w + 1) sched w hlk
      obtain ⟨r, hr, hs, hp', hnd''⟩ := ih _ (pst + 1) hnd' hpos2 (by rw [hsum']; omega)
      refine ⟨r, hr, ?_, hp', hnd''⟩
      rw [hs, hsum']
      push_cast
      omega

theorem sampleSchedule_wf (o : Oracles) (random_seed : Nat)
    (arrival_seed : List (String × PyNum)) (total_daily_agents : Nat) :
    ((sampleSchedule o random_seed arrival_seed total_daily_agents).1.map (·.1)).Nodup
      ∧ ∀ p ∈ (sampleSchedule o random_seed arrival_seed total_daily_agents).1, 0 ≤ p.2 := by
  have H2 : ∀ (g : List (Nat × Int) → Nat → List (Nat × Int)),
      (∀ sch m, ((sch.map (·.1)).Nodup → (((g sch m).map (·.1)).Nodup))
        ∧ ((∀ p ∈ sch, 0 ≤ p.2) → ∀ p ∈ g sch m, 0 ≤ p.2)) →
      ∀ (ms : List Nat) (sch : List (Nat × Int)),
        (sch.map (·.1)).Nodup → (∀ p ∈ sch, 0 ≤ p.2) →
        (((ms.foldl g sch).map (·.1)).Nodup ∧ ∀ p ∈ ms.foldl g sch, 0 ≤ p.2) := by
    intro g hg ms
    induction ms with
    | nil => intro sch h1 h2; exact ⟨h1, h2⟩
    | cons m rest ih =>
      intro sch h1 h2
      simp only [List.foldl_cons]
      exact ih _ ((hg sch m).1 h1) ((hg sch m).2 h2)
  have H : ∀ (l : List (Nat × String × PyNum)) (acc : List (Nat × Int) × Option Nat),
      (acc.1.map (·.1)).Nodup → (∀ p ∈ acc.1, 0 ≤ p.2) →
      (((l.foldl (fun (acc : List (Nat × Int) × Option Nat) hp =>
        let hour := hp.1
        let arrival_pct := hp.2.2
        let park_close :=
          if arrival_pct.eqb 0 ∧ (acc.2 = none ∨ acc.2 = some 0) then some (hour * 60) else acc.2
        let expected_minute_agents : PyNum :=
          (PyNum.ofNat total_daily_agents * arrival_pct * ((1 : PyNum) / (100 : PyNum)))
            / (60 : PyNum)
        let sched := (List.range 60).foldl
          (fun sch minute =>
            dictUpdate (hour * 60 + minute)
              ((o.npPoisson (random_seed + hour) expected_minute_agents minute : Int)) sch)
          acc.1
        (sched, park_close)) acc).1.map (·.1)).Nodup
      ∧ ∀ p ∈ (l.foldl (fun (acc : List (Nat × Int) × Option Nat) hp =>
        let hour := hp.1
        let arrival_pct := hp.2.2
        let park_close :=
          if arrival_pct.eqb 0 ∧ (acc.2 = none ∨ acc.2 = some 0) then some (hour * 60) else acc.2
        let expected_minute_agents : PyNum :=
          (PyNum.ofNat total_daily_agents * arrival_pct * ((1 : PyNum) / (100 : PyNum)))
            / (60 : PyNum)
        let sched := (List.range 60).foldl
          (fun sch minute =>
            dictUpdate (hour * 60 + minute)
              ((o.npPoisson (random_seed + hour) expected_minute_agents minute : Int)) sch)
          acc.1
        (sched, park_close)) acc).1, 0 ≤ p.2) := by
    intro l
    induction l with
    | nil => intro acc h1 h2; exact ⟨h1, h2⟩
    | cons q rest ih =>
      intro acc h1 h2
      simp only [List.foldl_cons]
      refine ih _ ?_ ?_
      · simp only []
        exact (H2 _ (fun sch m => ⟨fun hn => dictUpdate_keys_nodup _ _ sch hn,
            fun hp p hpm => by
              rcases dictUpdate_mem _ _ sch p hpm with h | h
              · rw [h]; exact Int.natCast_nonneg _
              · exact hp p h⟩)
          (List.range 60) acc.1 h1 h2).1
      · simp only []
        exact (H2 _ (fun sch m => ⟨fun hn => dictUpdate_keys_nodup _ _ sch hn,
            fun hp p hpm => by
              rcases dictUpdate_mem _ _ sch p hpm with h | h
              · rw [h]; exact Int.natCast_nonneg _
              · exact hp p h⟩)
          (List.range 60) acc.1 h1 h2).2
  exact H arrival_seed.enum ([], none) List.nodup_nil (fun p hp => absurd hp (List.not_mem_nil p))

/-- C4 (amended): for every hourly table summing to 100 with at most 24
buckets, under exact-arrival enforcement `generate_arrival_schedule`
terminates with the schedule summing exactly to the configured daily total
and with every minute bucket non-negative, *provided* the Poisson-sampled
schedule is not identically zero while the target total is positive; in that
remaining case `random.choice` is applied to an empty candidate list and the
call raises IndexError instead. -/
theorem c4_exact_total_or_indexerr (o : Oracles) (random_seed : Nat)
    (arrival_seed : List (String × PyNum)) (total_daily_agents : Nat)
    (hsum : (sumVals arrival_seed).eqb 100 = true)
    (hlen : arrival_seed.length ≤ 24) :
    (¬(schedSum (sampleSchedule o random_seed arrival_seed total_daily_agents).1 = 0
        ∧ 0 < total_daily_agents) →
      ∃ r : List (Nat × Int) × Option Nat × Nat,
        generate_arrival_schedule o random_seed arrival_seed total_daily_agents true = .ok r
          ∧ schedSum r.1 = (total_daily_agents : Int)
          ∧ ∀ p ∈ r.1, 0 ≤ p.2)
    ∧ ((schedSum (sampleSchedule o random_seed arrival_seed total_daily_agents).1 = 0
        ∧ 0 < total_daily_agents) →
      generate_arrival_schedule o random_seed arrival_seed total_daily_agents true
        = .error .indexErr) := by
  obtain ⟨hnd, hpos⟩ := sampleSchedule_wf o random_seed arrival_seed total_daily_agents
  have hsum0 := schedSum_nonneg _ hpos
  constructor
  · intro hprov
    unfold generate_arrival_schedule
    rw [if_neg (fun hc => by rw [hsum] at hc; exact Bool.noConfusion hc)]
    rw [if_neg (Nat.not_lt.mpr hlen)]
    simp only []
    rw [if_pos trivial]
    by_cases hdif : 0 < schedSum (sampleSchedule o random_seed arrival_seed total_daily_agents).1
        - (total_daily_agents : Int)
    · rw [if_pos hdif]
      obtain ⟨r, hr, hs, hp, _⟩ := corrLoop_dec o
        (schedSum (sampleSchedule o random_seed arrival_seed total_daily_agents).1
          - (total_daily_agents : Int)).toNat
        (sampleSchedule o random_seed arrival_seed total_daily_agents).1 random_seed hnd hpos
        (by rw [Int.toNat_of_nonneg (by omega)]; omega)
      rw [hr]
      rw [Int.toNat_of_nonneg (by omega)] at hs
      have hexact : schedSum r.1 = (total_daily_agents : Int) := by omega
      simp only []
      rw [if_neg (fun hc => hc hexact)]
      exact ⟨(r.1, (sampleSchedule o random_seed arrival_seed total_daily_agents).2, r.2),
        rfl, hexact, hp⟩
    · rw [if_neg hdif]
      by_cases hdif2 : schedSum (sampleSchedule o random_seed arrival_seed total_daily_agents).1
          - (total_daily_agents : Int) < 0
      · rw [if_pos hdif2]
        have hspos : 0 < schedSum (sampleSchedule o random_seed arrival_seed total_daily_agents).1 := by
          rcases lt_or_eq_of_le hsum0 with h | h
          · exact h
          · exfalso
            exact hprov ⟨h.symm, by omega⟩
        obtain ⟨r, hr, hs, hp, _⟩ := corrLoop_inc o
          (-(schedSum (sampleSchedule o random_seed arrival_seed total_daily_agents).1
            - (total_daily_agents : Int))).toNat
          (sampleSchedule o random_seed arrival_seed total_daily_agents).1 random_seed hnd hpos hspos
        rw [hr]
        rw [Int.toNat_of_nonneg (by omega)] at hs
        have hexact : schedSum r.1 = (total_daily_agents : Int) := by omega
        simp only []
        rw [if_neg (fun hc => hc hexact)]
        exact ⟨(r.1, (sampleSchedule o random_seed arrival_seed total_daily_agents).2, r.2),
          rfl, hexact, hp⟩
      · rw [if_neg hdif2]
        simp only []
        have hexact : schedSum (sampleSchedule o random_seed arrival_seed total_daily_agents).1
            = (total_daily_agents : Int) := by omega
        rw [if_neg (fun hc => hc hexact)]
        exact ⟨((sampleSchedule o random_seed arrival_seed total_daily_agents).1,
          (sampleSchedule o random_seed arrival_seed total_daily_agents).2, random_seed),
          rfl, hexact, hpos⟩
  · intro ⟨hz, htot⟩
    unfold generate_arrival_schedule
    rw [if_neg (fun hc => by rw [hsum] at hc; exact Bool.noConfusion hc)]
    rw [if_neg (Nat.not_lt.mpr hlen)]
    simp only []
    rw [if_pos trivial]
    have hdif : schedSum (sampleSchedule o random_seed arrival_seed total_daily_agents).1
        - (total_daily_agents : Int) < 0 := by omega
    rw [if_neg (by omega), if_pos hdif]
    have hempty : ((sampleSchedule o random_seed arrival_seed total_daily_agents).1.filter
        (fun p => 0 < p.2)).map (·.1) = [] := by
      rw [List.filter_eq_nil.mpr, List.map_nil]
      intro p hp
      have h1 := hpos p hp
      have h2 := le_schedSum_of_mem _ p hpos hp
      rw [decide_eq_true_eq]
      omega
    rw [correctionLoop_pos_empty o 1 _ (by omega) _ random_seed hempty]

/-- Witness for C4 (amended): the exact-total branch at a concrete two-hour
table under `oA` (sampled total 2, corrected up to the target 5), and the
IndexError branch at the all-zero sampler `oStay`. -/
theorem c4_exact_total_or_indexerr_witness :
    (∃ r : List (Nat × Int) × Option Nat × Nat,
      generate_arrival_schedule oA 7 [("h0", 60), ("h1", 40)] 5 true = .ok r
        ∧ schedSum r.1 = (5 : Int)
        ∧ ∀ p ∈ r.1, 0 ≤ p.2)
    ∧ generate_arrival_schedule oStay 5 [("h0", 100), ("h1", 0)] 1 true
      = .error .indexErr :=
  ⟨(c4_exact_total_or_indexerr oA 7 [("h0", 60), ("h1", 40)] 5 (by decide) (by decide)).1
      (by decide),
   (c4_exact_total_or_indexerr oStay 5 [("h0", 100), ("h1", 0)] 1 (by decide) (by decide)).2
      (by decide)⟩

/-! ## C3 (amended) -/

theorem lookup_mem_pairs {κ α : Type} [BEq κ] [LawfulBEq κ] :
    ∀ (l : List (κ × α)) (k : κ) (v : α), l.lookup k = some v → (k, v) ∈ l := by
  intro l
  induction l with
  | nil => intro k v h; exact absurd h (by simp [List.lookup])
  | cons q rest ih =>
    intro k v h
    obtain ⟨k1, v1⟩ := q
    by_cases hb : (k == k1) = true
    · simp only [List.lookup, hb] at h
      rw [eq_of_beq hb, Option.some.inj h]
      exact List.mem_cons_self _ _
    · rw [Bool.not_eq_true] at hb
      simp only [List.lookup, hb] at h
      exact List.mem_cons_of_mem _ (ih k v h)

theorem add_to_activity_seed (o : Oracles) (e : Nat → PyNum) (epos : Nat)
    (act : Activity) (agent_id : Nat) (ert : List PyNum) :
    (Activity.add_to_activity o e epos act agent_id ert).1.random_seed
      = act.random_seed := rfl

theorem add_to_activity_e_irrel (o : Oracles) (e1 e2 : Nat → PyNum) (epos : Nat)
    (act : Activity) (agent_id : Nat) (ert : List PyNum)
    (h : act.random_seed ≠ 0) :
    Activity.add_to_activity o e1 epos act agent_id ert
      = Activity.add_to_activity o e2 epos act agent_id ert := by
  unfold Activity.add_to_activity
  rw [if_pos h, if_pos h]

theorem force_exit_seed (act : Activity) (agent_id : Nat) (act' : Activity)
    (h : act.force_exit agent_id = .ok act') : act'.random_seed = act.random_seed := by
  unfold Activity.force_exit at h
  split at h
  · exact Except.noConfusion h
  · rw [← Except.ok.inj h]

theorem activity_step_seed (act : Activity) (r : Activity × List Nat)
    (h : act.step = .ok r) : r.1.random_seed = act.random_seed := by
  unfold Activity.step at h
  split at h
  · exact Except.noConfusion h
  · rw [← Except.ok.inj h]

theorem exitedLoop_activities (name : String) :
    ∀ (ids : List Nat) (s s' : ParkState), exitedLoop name ids s = .ok s' →
      s'.activities = s.activities := by
  intro ids
  induction ids with
  | nil =>
    intro s s' h
    rw [← Except.ok.inj h]
  | cons i rest ih =>
    intro s s' h
    unfold exitedLoop at h
    split at h
    · exact Except.noConfusion h
    · split at h
      · exact Except.noConfusion h
      · have hr := ih _ _ h
        exact hr

theorem activityExitedLoop_seeded (name : String) :
    ∀ (ids : List Nat) (s s' : ParkState), activityExitedLoop name ids s = .ok s' →
      s'.activities = s.activities := by
  intro ids
  induction ids with
  | nil =>
    intro s s' h
    rw [← Except.ok.inj h]
  | cons i rest ih =>
    intro s s' h
    unfold activityExitedLoop at h
    split at h
    · exact Except.noConfusion h
    · split at h
      · exact Except.noConfusion h
      · have hr := ih _ _ h
        exact hr

theorem boardedLoop_seeded (name : String) :
    ∀ (ids : List Nat) (s s' : ParkState), SeededOK s → boardedLoop name ids s = .ok s' →
      SeededOK s' := by
  intro ids
  induction ids with
  | nil =>
    intro s s' hs h
    rw [← Except.ok.inj h]
    exact hs
  | cons i rest ih =>
    intro s s' hs h
    unfold boardedLoop at h
    split at h
    · exact Except.noConfusion h
    · rename_i ag hag
      split at h
      · exact Except.noConfusion h
      · rename_i x s2 ag2 heq2
        simp only [] at h
        have hs2 : SeededOK s2 := by
          by_cases hbr : (ag.current_action == some "browsing") = true
          · rw [if_pos hbr] at heq2
            cases hcl : ag.current_location with
            | none =>
              rw [hcl] at heq2
              exact Except.noConfusion heq2
            | some loc =>
              simp only [hcl] at heq2
              cases hact : s.activities.lookup loc with
              | none =>
                simp only [hact] at heq2
                exact Except.noConfusion heq2
              | some act =>
                simp only [hact] at heq2
                cases hfe : act.force_exit i with
                | error err =>
                  simp only [hfe] at heq2
                  exact Except.noConfusion heq2
                | ok act2 =>
                  simp only [hfe] at heq2
                  cases hex : ag.agent_exited_activity loc with
                  | error err =>
                    simp only [hex] at heq2
                    exact Except.noConfusion heq2
                  | ok ag3 =>
                    simp only [hex] at heq2
                    have hinj := Except.ok.inj heq2
                    injection hinj with h1 h2
                    rw [← h1]
                    intro p hp
                    rcases dictUpdate_mem _ _ _ p hp with hq | hq
                    · rw [hq]
                      show act2.random_seed ≠ 0
                      rw [force_exit_seed _ _ _ hfe]
                      exact hs (loc, act) (lookup_mem_pairs _ _ _ hact)
                    · exact hs p hq
          · rw [Bool.not_eq_true] at hbr
            rw [if_neg (by rw [hbr]; exact Bool.false_ne_true)] at heq2
            have hinj := Except.ok.inj heq2
            injection hinj with h1 h2
            rw [← h1]
            exact hs
        refine ih _ s' ?_ h
        intro p hp
        exact hs2 p hp

theorem processAttractions_seeded :
    ∀ (names : List String) (s s' : ParkState), SeededOK s →
      processAttractions names s = .ok s' → SeededOK s' := by
  intro names
  induction names with
  | nil =>
    intro s s' hs h
    rw [← Except.ok.inj h]
    exact hs
  | cons name rest ih =>
    intro s s' hs h
    unfold processAttractions at h
    split at h
    · exact Except.noConfusion h
    · split at h
      · exact Except.noConfusion h
      · simp only [] at h
        split at h
        · exact Except.noConfusion h
        · rename_i s2 hexit
          split at h
          · exact Except.noConfusion h
          · rename_i s3 hboard
            refine ih _ s' ?_ h
            have hact2 := exitedLoop_activities name _ _ _ hexit
            refine boardedLoop_seeded name _ s2 s3 ?_ hboard
            intro p hp
            rw [hact2] at hp
            exact hs p hp

theorem processActivities_seeded :
    ∀ (names : List String) (s s' : ParkState), SeededOK s →
      processActivities names s = .ok s' → SeededOK s' := by
  intro names
  induction names with
  | nil =>
    intro s s' hs h
    rw [← Except.ok.inj h]
    exact hs
  | cons name rest ih =>
    intro s s' hs h
    unfold processActivities at h
    split at h
    · exact Except.noConfusion h
    · rename_i act hact
      split at h
      · exact Except.noConfusion h
      · rename_i act2 exiting hstep
        simp only [] at h
        split at h
        · exact Except.noConfusion h
        · rename_i s2 hexit
          refine ih _ s' ?_ h
          have hact2 := activityExitedLoop_seeded name _ _ _ hexit
          intro p hp
          rw [hact2] at hp
          rcases dictUpdate_mem _ _ _ p hp with hq | hq
          · rw [hq]
            show act2.random_seed ≠ 0
            have hseq : act2.random_seed = act.random_seed :=
              activity_step_seed act (act2, exiting) hstep
            rw [hseq]
            exact hs (name, act) (lookup_mem_pairs _ _ _ hact)
          · exact hs p hq

theorem passTimePhase_seeded (fuelW : Nat) (s s' : ParkState) (hs : SeededOK s)
    (h : passTimePhase fuelW s = .ok s') : SeededOK s' := by
  unfold passTimePhase at h
  simp only [] at h
  split at h
  · exact Except.noConfusion h
  · rw [← Except.ok.inj h]
    intro p hp
    rcases List.mem_map.mp hp with ⟨q, hq, hpq⟩
    rw [← hpq]
    exact hs q hq

theorem update_park_state_seeded (o : Oracles) (e : Nat → PyNum) (fuelW : Nat)
    (s : ParkState) (aid : Nat) (action : String) (loc : Option String)
    (hs : SeededOK s) (s' : ParkState)
    (h : Park.update_park_state o e fuelW s aid action loc = .ok s') : SeededOK s' := by
  unfold Park.update_park_state at h
  split at h
  · exact Except.noConfusion h
  · rename_i ag hag
    split at h
    · -- "leaving"
      split at h
      · exact Except.noConfusion h
      · rw [← Except.ok.inj h]
        exact fun p hp => hs p hp
    · split at h
      · -- "traveling"
        cases loc with
        | none =>
          rw [← Except.ok.inj h]
          exact hs
        | some l =>
          simp only [] at h
          cases hattr : s.attractions.lookup l with
          | some attr =>
            simp only [hattr] at h
            cases hact : s.activities.lookup l with
            | some act =>
              simp only [hact] at h
              rw [← Except.ok.inj h]
              intro p hp
              rcases dictUpdate_mem _ _ _ p hp with hq | hq
              · rw [hq]
                show (Activity.add_to_activity o e s.epos act aid
                  ((ag.enter_queue l).begin_activity l).expedited_return_time).1.random_seed ≠ 0
                rw [add_to_activity_seed]
                exact hs (l, act) (lookup_mem_pairs _ _ _ hact)
              · exact hs p hq
            | none =>
              simp only [hact] at h
              rw [← Except.ok.inj h]
              exact fun p hp => hs p hp
          | none =>
            simp only [hattr] at h
            cases hact : s.activities.lookup l with
            | some act =>
              simp only [hact] at h
              rw [← Except.ok.inj h]
              intro p hp
              rcases dictUpdate_mem _ _ _ p hp with hq | hq
              · rw [hq]
                show (Activity.add_to_activity o e s.epos act aid
                  (ag.begin_activity l).expedited_return_time).1.random_seed ≠ 0
                rw [add_to_activity_seed]
                exact hs (l, act) (lookup_mem_pairs _ _ _ hact)
              · exact hs p hq
            | none =>
              simp only [hact] at h
              rw [← Except.ok.inj h]
              exact hs
      · split at h
        · -- "get pass"
          cases loc with
          | none => exact Except.noConfusion h
          | some l =>
            simp only [] at h
            split at h
            · exact Except.noConfusion h
            · split at h
              · exact Except.noConfusion h
              · rw [← Except.ok.inj h]
                exact fun p hp => hs p hp
        · rw [← Except.ok.inj h]
          exact hs

theorem update_park_state_e_irrel (o : Oracles) (e1 e2 : Nat → PyNum) (fuelW : Nat)
    (s : ParkState) (aid : Nat) (action : String) (loc : Option String) (hs : SeededOK s) :
    Park.update_park_state o e1 fuelW s aid action loc
      = Park.update_park_state o e2 fuelW s aid action loc := by
  unfold Park.update_park_state
  cases hag : s.agents.lookup aid with
  | none => rfl
  | some ag =>
    simp only []
    by_cases h1 : action = "leaving"
    · rw [if_pos h1, if_pos h1]
    · rw [if_neg h1, if_neg h1]
      by_cases h2 : action = "traveling"
      · rw [if_pos h2, if_pos h2]
        cases loc with
        | none => rfl
        | some l =>
          simp only []
          cases hattr : s.attractions.lookup l with
          | some attr =>
            simp only [hattr]
            cases hact : s.activities.lookup l with
            | some act =>
              simp only [hact]
              rw [add_to_activity_e_irrel o e1 e2 s.epos act aid _
                (hs (l, act) (lookup_mem_pairs _ _ _ hact))]
            | none => simp only [hact]
          | none =>
            simp only [hattr]
            cases hact : s.activities.lookup l with
            | some act =>
              simp only [hact]
              rw [add_to_activity_e_irrel o e1 e2 s.epos act aid _
                (hs (l, act) (lookup_mem_pairs _ _ _ hact))]
            | none => simp only [hact]
      · rw [if_neg h2, if_neg h2]

theorem processIdleAgents_cons (o : Oracles) (e : Nat → PyNum) (fuelW i : Nat)
    (rest : List Nat) (s : ParkState) (pc : Nat) (hpc : s.park_close = some pc)
    (ag : Agent) (hag : s.agents.lookup i = some ag)
    (action : String) (location : Option String) (pst2 : Nat)
    (hdec : ag.make_state_change_decision o fuelW s.random_seed s.attractions
      s.activities s.time (decide (pc ≤ s.time)) s.pyState = .ok ((action, location), pst2)) :
    processIdleAgents o e fuelW (i :: rest) s
      = match Park.update_park_state o e fuelW
          (if action = "get pass"
           then { s with pyState := pst2, distributed_passes := s.distributed_passes + 1 }
           else { s with pyState := pst2 }) i action location with
        | .error err => .error err
        | .ok s3 => processIdleAgents o e fuelW rest s3 := by
  conv_lhs => unfold processIdleAgents
  simp only [hpc, hag, hdec]

theorem processIdleAgents_seeded (o : Oracles) (e : Nat → PyNum) (fuelW : Nat) :
    ∀ (ids : List Nat) (s s' : ParkState), SeededOK s →
      processIdleAgents o e fuelW ids s = .ok s' → SeededOK s' := by
  intro ids
  induction ids with
  | nil =>
    intro s s' hs h
    rw [← Except.ok.inj h]
    exact hs
  | cons i rest ih =>
    intro s s' hs h
    unfold processIdleAgents at h
    split at h
    · exact Except.noConfusion h
    · split at h
      · exact Except.noConfusion h
      · split at h
        · exact Except.noConfusion h
        · rename_i action location pst2 hdec
          simp only [] at h
          split at h
          · exact Except.noConfusion h
          · rename_i s3 hup
            refine ih _ s' ?_ h
            refine update_park_state_seeded o e fuelW _ i action location ?_ s3 hup
            by_cases hgp : action = "get pass"
            · rw [if_pos hgp]
              exact fun p hp => hs p hp
            · rw [if_neg hgp]
              exact fun p hp => hs p hp

theorem processIdleAgents_e_irrel (o : Oracles) (e1 e2 : Nat → PyNum) (fuelW : Nat) :
    ∀ (ids : List Nat) (s : ParkState), SeededOK s →
      processIdleAgents o e1 fuelW ids s = processIdleAgents o e2 fuelW ids s := by
  intro ids
  induction ids with
  | nil => intro s _; rfl
  | cons i rest ih =>
    intro s hs
    cases hpc : s.park_close with
    | none =>
      unfold processIdleAgents
      simp only [hpc]
    | some pc =>
      cases hag : s.agents.lookup i with
      | none =>
        unfold processIdleAgents
        simp only [hpc, hag]
      | some ag =>
        cases hdec : ag.make_state_change_decision o fuelW s.random_seed s.attractions
            s.activities s.time (decide (pc ≤ s.time)) s.pyState with
        | error err =>
          unfold processIdleAgents
          simp only [hpc, hag, hdec]
        | ok r =>
          obtain ⟨⟨action, location⟩, pst2⟩ := r
          rw [processIdleAgents_cons o e1 fuelW i rest s pc hpc ag hag action location pst2 hdec,
              processIdleAgents_cons o e2 fuelW i rest s pc hpc ag hag action location pst2 hdec]
          have hS : SeededOK (if action = "get pass"
              then { s with pyState := pst2, distributed_passes := s.distributed_passes + 1 }
              else { s with pyState := pst2 }) := by
            by_cases hgp : action = "get pass"
            · rw [if_pos hgp]
              exact fun p hp => hs p hp
            · rw [if_neg hgp]
              exact fun p hp => hs p hp
          rw [update_park_state_e_irrel o e1 e2 fuelW _ i action location hS]
          cases hup : Park.update_park_state o e2 fuelW (if action = "get pass"
              then { s with pyState := pst2, distributed_passes := s.distributed_passes + 1 }
              else { s with pyState := pst2 }) i action location with
          | error err => rfl
          | ok s3 =>
            exact ih s3 (update_park_state_seeded o e2 fuelW _ i action location hS s3 hup)

theorem step_e_irrel (o : Oracles) (e1 e2 : Nat → PyNum) (fuelW : Nat) (s : ParkState)
    (hs : SeededOK s) : Park.step o e1 fuelW s = Park.step o e2 fuelW s := by
  unfold Park.step
  cases hlk : s.schedule.lookup s.time with
  | none => rfl
  | some tot =>
    simp only []
    cases harr : arriveLoop s.time ((List.range tot.toNat).map (s.arrival_index + ·)) s with
    | error err => rfl
    | ok s1 =>
      simp only []
      have hs1 : SeededOK s1 := by
        intro p hp
        rw [(arriveLoop_frame s.time _ s s1 harr).2] at hp
        exact hs p hp
      rw [processIdleAgents_e_irrel o e1 e2 fuelW
        (getIdleAgentIds { s1 with arrival_index := s1.arrival_index + tot.toNat })
        { s1 with arrival_index := s1.arrival_index + tot.toNat }
        (fun p hp => hs1 p hp)]

theorem step_seeded (o : Oracles) (e : Nat → PyNum) (fuelW : Nat) (s s' : ParkState)
    (hs : SeededOK s) (h : Park.step o e fuelW s = .ok s') : SeededOK s' := by
  unfold Park.step at h
  split at h
  · exact Except.noConfusion h
  · rename_i tot hlk
    simp only [] at h
    split at h
    · exact Except.noConfusion h
    · rename_i s1 harr
      split at h
      · exact Except.noConfusion h
      · rename_i s2 hidle
        split at h
        · exact Except.noConfusion h
        · rename_i s3 hatt
          split at h
          · exact Except.noConfusion h
          · rename_i s4 hacts
            split at h
            · exact Except.noConfusion h
            · rename_i s5 hpass
              rw [← Except.ok.inj h]
              have h1 : SeededOK s1 := by
                intro p hp
                rw [(arriveLoop_frame s.time _ s s1 harr).2] at hp
                exact hs p hp
              have h2 : SeededOK s2 := by
                refine processIdleAgents_seeded o e fuelW _ _ s2 ?_ hidle
                intro p hp
                exact h1 p hp
              have h3 := processAttractions_seeded _ _ s3 h2 hatt
              have h4 := processActivities_seeded _ _ s4 h3 hacts
              have h5 := passTimePhase_seeded fuelW s4 s5 h4 hpass
              exact fun p hp => h5 p hp

theorem runSteps_e_irrel (o : Oracles) (e1 e2 : Nat → PyNum) (fuelW : Nat) :
    ∀ (n : Nat) (s : ParkState), SeededOK s →
      Park.runSteps o e1 fuelW n s = Park.runSteps o e2 fuelW n s := by
  intro n
  induction n with
  | zero => intro s _; rfl
  | succ n ih =>
    intro s hs
    unfold Park.runSteps
    rw [step_e_irrel o e1 e2 fuelW s hs]
    cases hst : Park.step o e2 fuelW s with
    | error err => rfl
    | ok s1 =>
      exact ih s1 (step_seeded o e2 fuelW s s1 hs hst)

theorem activity_init_seed (c : ActivityChars) (random_seed : Nat) (a : Activity)
    (h : Activity.init c random_seed = .ok a) : a.random_seed = random_seed := by
  unfold Activity.init at h
  split at h
  · exact Except.noConfusion h
  · rw [← Except.ok.inj h]

theorem generate_activities_go_seed (random_seed : Nat) :
    ∀ (l : List ActivityChars) (acc acts : List (String × Activity)),
      (∀ p ∈ acc, p.2.random_seed = random_seed) →
      generate_activities.go random_seed l acc = .ok acts →
      ∀ p ∈ acts, p.2.random_seed = random_seed := by
  intro l
  induction l with
  | nil =>
    intro acc acts hacc h
    unfold generate_activities.go at h
    rw [← Except.ok.inj h]
    exact hacc
  | cons c rest ih =>
    intro acc acts hacc h
    unfold generate_activities.go at h
    split at h
    · exact Except.noConfusion h
    · rename_i a hinit
      refine ih _ acts ?_ h
      intro p hp
      rcases dictUpdate_mem _ _ _ p hp with hq | hq
      · rw [hq]
        exact activity_init_seed c random_seed a hinit
      · exact hacc p hq

theorem build_seeded (o : Oracles) (random_seed : Nat) (cfg : ParkConfig) (s : ParkState)
    (hseed : random_seed ≠ 0) (h : Park.build o random_seed cfg = .ok s) : SeededOK s := by
  unfold Park.build at h
  split at h
  · exact Except.noConfusion h
  · split at h
    · exact Except.noConfusion h
    · split at h
      · exact Except.noConfusion h
      · split at h
        · exact Except.noConfusion h
        · rename_i activities hacts
          rw [← Except.ok.inj h]
          intro p hp
          have hps : p.2.random_seed = random_seed := by
            unfold generate_activities at hacts
            exact generate_activities_go_seed random_seed _ [] activities
              (fun q hq => absurd hq (List.not_mem_nil q)) hacts p hp
          rw [hps]
          exact hseed

/-- C3 (amended): two whole engine runs from identical configuration and the
same *nonzero* base seed are equal as final park states — so arrival
schedules, the per-tick `total_active_agents` history and the final
distributed/redeemed pass totals all coincide — regardless of the ambient
entropy that the unseeded global NumPy generator would supply.  (With base
seed 0, the constructor default, `if self.random_seed:` in
`Activity.add_to_activity` is falsy and runs can diverge, as the
counterexample shows.) -/
theorem c3_nonzero_seed_runs_deterministic (o : Oracles) (e1 e2 : Nat → PyNum)
    (fuelW random_seed : Nat) (cfg : ParkConfig) (n : Nat) (hseed : random_seed ≠ 0) :
    Park.run o e1 fuelW random_seed cfg n = Park.run o e2 fuelW random_seed cfg n := by
  unfold Park.run
  cases hb : Park.build o random_seed cfg with
  | error err => rfl
  | ok s =>
    simp only []
    exact runSteps_e_irrel o e1 e2 fuelW n s (build_seeded o random_seed cfg s hseed hb)

/-- Witness for C3 (amended): the two entropy streams that diverge under
seed 0 (see the counterexample) give identical three-minute runs under
seed 1. -/
theorem c3_nonzero_seed_runs_deterministic_witness :
    Park.run oA entropyOne 10 1 cfgC3 3 = Park.run oA entropyThree 10 1 cfgC3 3 :=
  c3_nonzero_seed_runs_deterministic oA entropyOne entropyThree 10 1 cfgC3 3 (by decide)

/-! ## Counterexamples for C3, C4 and C10 -/

/-- C3 counterexample: two engine runs with identical configuration `cfgC3`
and the same base seed 0 (the constructor default), differing only in the
ambient entropy consumed by the *unseeded* global NumPy generator (reached
because `if self.random_seed:` is false for seed 0), produce different
per-tick `total_active_agents` histories: the sole agent draws an activity
stay of 1 vs. 3 minutes and so leaves the park at different minutes. -/
theorem c3_seed_zero_runs_diverge :
    (Park.run oA entropyOne 10 0 cfgC3 3).map (fun s => s.total_active_agents)
        = .ok [(0, 1), (1, 1), (2, 0)]
      ∧ (Park.run oA entropyThree 10 0 cfgC3 3).map (fun s => s.total_active_agents)
        = .ok [(0, 1), (1, 1), (2, 1)]
      ∧ ((.ok [(0, 1), (1, 1), (2, 0)] : Except Err (List (Nat × Nat)))
        ≠ .ok [(0, 1), (1, 1), (2, 1)]) := by
  exact ⟨by decide, by decide, by decide⟩

/-- C4 counterexample: an hourly table summing to 100 with 2 ≤ 24 buckets
and exact-arrival enforcement requested, yet `generate_arrival_schedule` does
not terminate with the schedule summing to the target: when every Poisson
sample is 0 and the target is positive, the increment correction calls
`random.choice` on an empty candidate list and raises IndexError. -/
theorem c4_empty_choice_crash :
    (sumVals [("h0", (100 : PyNum)), ("h1", 0)]).eqb 100 = true
      ∧ ([("h0", (100 : PyNum)), ("h1", 0)].length ≤ 24)
      ∧ generate_arrival_schedule oStay 5 [("h0", (100 : PyNum)), ("h1", 0)] 1 true
        = .error .indexErr := by
  exact ⟨by decide, by decide, by decide⟩

/-- C10 counterexample: a park built from a table with no zero-percentage
hour (so `park_close` is `None`) on which `Park.step` nevertheless completes
normally, because the raising comparison `self.park_close <= self.time` is
only evaluated inside the per-idle-agent loop and this tick has no idle
agents.  This falsifies "every subsequent Park.step call is undefined". -/
theorem c10_step_succeeds_without_idlers :
    (∀ p ∈ cfgC10.arrival_seed, p.2.eqb 0 = false)
      ∧ (Park.build oStay 5 cfgC10).map (fun s => s.park_close) = .ok none
      ∧ exceptOk ((Park.build oStay 5 cfgC10).bind (Park.step oStay entropyOne 10)) = true := by
  exact ⟨by decide, by decide, by decide⟩

end Shapeland
